import Mathlib

/-!
Verification development for the rh-kg knowledge-graph system.

Shallow embedding of the core data model and operations of the backend:
dependency URI parsing, schema-version management, schema-change detection
and additive-only validation, schema-catalog consistency checking, the
multi-layer validation engine, the mock storage backend, the CLI apply loop
and the generic relationship processor.  Python strings are modelled as
`String` (with character-level work on `List Char`), Python dicts as
association lists, wall-clock timestamps as explicit `Nat` arguments, and
async functions as pure state-passing functions.
-/

namespace RhKg

/-- Association-list lookup, modelling Python `dict.get` for dicts whose keys
are unique (the loaders build them from YAML mappings). First match wins. -/
def lookupKey {α : Type} : List (String × α) → String → Option α
  | [], _ => none
  | (k, v) :: rest, key => if k = key then some v else lookupKey rest key

/-- Association-list update, modelling Python `d[k] = v`: replaces the value
at an existing key, appends the pair otherwise. -/
def setKey {α : Type} : List (String × α) → String → α → List (String × α)
  | [], key, v => [(key, v)]
  | (k, w) :: rest, key, v =>
      if k = key then (k, v) :: rest else (k, w) :: setKey rest key v

/-- Keys of an association list, in insertion order. -/
def keysOf {α : Type} (m : List (String × α)) : List String := m.map (·.1)

/-! ## Dependency URI handling (`src/backend/kg/core/dependency_types.py`)

URIs are handled at the character level (`List Char`).  The anchored regex
`^external://([^/]+)/(.+)/([^/]+)$` is modelled by its (deterministic)
greedy match: group 1 is the maximal non-slash run after the scheme, group 3
the maximal non-slash run at the end, group 2 everything between.  The
character classes `[^/]` match any character other than `/`, newline
included; `.` (Python `re` without `DOTALL`) matches any character except
newline, so a group-2 span containing a newline fails the match. -/

namespace DependencyTypes

/-- The characters of `DependencyType.EXTERNAL.uri_prefix`, i.e.
`"external://"`. -/
def externalScheme : List Char := "external://".data

/-- Character-level `str.startswith`. -/
def startsWithChars : List Char → List Char → Bool
  | _, [] => true
  | [], _ :: _ => false
  | c :: cs, p :: ps => c = p && startsWithChars cs ps

/-- Embeds `DependencyType.EXTERNAL.matches_uri`: the URI is a non-empty
string starting with `"external://"`. -/
def matches_uri_external (uri : List Char) : Bool :=
  startsWithChars uri externalScheme

/-- Result of `DependencyType._parse_external_groups`: the dictionary the
parser returns, minus the constant `type` tag. -/
structure ExternalDepInfo where
  ecosystem : List Char
  package_name : List Char
  version : List Char
  package_id : List Char
  version_id : List Char
  uri : List Char
  deriving DecidableEq, Repr

/-- The match of `([^/]+)/(.+)/([^/]+)$` against the characters following
the scheme: group 1 is everything up to the first slash, group 3 everything
after the last slash, group 2 the rest; all three must be non-empty, and
group 2 — matched character by character by `.`, which without `re.DOTALL`
excludes newline — must contain no newline. -/
def matchExternalGroups (rest : List Char) : Option (List Char × List Char × List Char) :=
  let g1 := rest.takeWhile (fun c => c ≠ '/')
  match rest.dropWhile (fun c => c ≠ '/') with
  | '/' :: r2 =>
      if g1 = [] then none
      else
        let rev := r2.reverse
        let g3rev := rev.takeWhile (fun c => c ≠ '/')
        match rev.dropWhile (fun c => c ≠ '/') with
        | '/' :: g2rev =>
            if g3rev = [] then none
            else if g2rev = [] then none
            else if g2rev.contains '\n' then none
            else some (g1, g2rev.reverse, g3rev.reverse)
        | _ => none
  | _ => none

/-- Embeds `DependencyType.EXTERNAL.parse_uri` (via
`_parse_external_groups`): check the prefix, match the anchored regex, then
build the result dictionary with the derived `package_id` and
`version_id`. -/
def parse_external_dependency (uri : List Char) : Option ExternalDepInfo :=
  if matches_uri_external uri then
    match matchExternalGroups (uri.drop externalScheme.length) with
    | some (eco, pkg, ver) =>
        if eco = [] ∨ pkg = [] ∨ ver = [] then none
        else some
          { ecosystem := eco
            package_name := pkg
            version := ver
            package_id := externalScheme ++ eco ++ '/' :: pkg
            version_id := uri
            uri := uri }
    | none => none
  else none

/-- Embeds `DependencyUriBuilder.external`: string interpolation
`f"external://⟨ecosystem⟩/⟨package_name⟩/⟨version⟩"`. -/
def builder_external (ecosystem package_name version : List Char) : List Char :=
  externalScheme ++ (ecosystem ++ '/' :: (package_name ++ '/' :: version))

end DependencyTypes

/-! ## Schema data model (`src/backend/kg/core/schema.py`)

Only the attributes read by the code under verification are embedded:
`_field_definitions_differ` compares `type`, `required` and `validation`;
the consistency checker reads `name`, the relationship attributes and
`dgraph_type`. -/

/-- Field definition attributes used by the change detector and the
consistency checker. -/
structure FieldDefinition where
  name : String
  type : String
  required : Bool
  validation : Option String
  deriving DecidableEq, Repr

/-- Relationship definition attributes used by the change detector, the
consistency checker and the relationship processor. -/
structure RelationshipDefinition where
  name : String
  target_types : List String
  cardinality : String
  deriving DecidableEq, Repr

/-- Entity schema attributes used by the code under verification. -/
structure EntitySchema where
  entity_type : String
  required_fields : List FieldDefinition
  optional_fields : List FieldDefinition
  readonly_fields : List FieldDefinition
  relationships : List RelationshipDefinition
  dgraph_type : String
  deriving DecidableEq, Repr

/-- A loaded catalog: the Python dict `entity_type -> EntitySchema`. -/
abbrev Catalog : Type := List (String × EntitySchema)

/-! ## Catalog consistency (`src/backend/kg/core/schema_loader.py`) -/

namespace SchemaLoader

/-- The four error templates of
`FileSchemaLoader.validate_schema_consistency`, with the values the
f-strings interpolate. -/
inductive ConsistencyError where
  | unknownTargetType (entity_type relationship_name target_type : String)
  | duplicateFieldNames (entity_type : String)
  | namingConflict (entity_type conflict_name : String)
  | missingDgraphType (entity_type : String)
  deriving DecidableEq, Repr

/-- All field names of a schema, in the order
`validate_schema_consistency` collects them: required, then optional, then
readonly. -/
def allFieldNames (s : EntitySchema) : List String :=
  (s.required_fields ++ s.optional_fields ++ s.readonly_fields).map (·.name)

/-- The consistency errors `validate_schema_consistency` emits for one
catalog entry, in source order: unknown relationship target types,
duplicate field names, field/relationship naming conflicts, missing
`dgraph_type`.  Python's set intersection is modelled by deduplicating the
relationship names and filtering by field-name membership, so each
conflicting name yields exactly one error. -/
def schemaConsistencyErrors (schemas : Catalog) (entity_type : String)
    (schema : EntitySchema) : List ConsistencyError :=
  (schema.relationships.flatMap (fun rel =>
      (rel.target_types.filter (fun t => (lookupKey schemas t).isNone)).map
        (fun t => ConsistencyError.unknownTargetType entity_type rel.name t)))
  ++ (if (allFieldNames schema).length ≠ (allFieldNames schema).dedup.length then
        [ConsistencyError.duplicateFieldNames entity_type]
      else [])
  ++ (((schema.relationships.map (·.name)).dedup.filter
        (fun n => (allFieldNames schema).contains n)).map
        (fun n => ConsistencyError.namingConflict entity_type n))
  ++ (if schema.dgraph_type = "" then
        [ConsistencyError.missingDgraphType entity_type]
      else [])

/-- Recursion over the catalog entries being checked; the first argument is
the full catalog used for target-type lookups. -/
def consistencyAux (schemas : Catalog) : Catalog → List ConsistencyError
  | [] => []
  | (t, s) :: rest => schemaConsistencyErrors schemas t s ++ consistencyAux schemas rest

/-- Embeds `FileSchemaLoader.validate_schema_consistency`. -/
def validate_schema_consistency (schemas : Catalog) : List ConsistencyError :=
  consistencyAux schemas schemas

/-- The loader's mutable state: `self.schemas` and `self.last_loaded`. -/
structure LoaderState where
  schemas : Catalog
  last_loaded : Option Nat
  deriving DecidableEq, Repr

/-- The error kinds `load_schemas` can raise: `SchemaLoadError` (wrapping
I/O, YAML, missing-key and inheritance failures) and
`SchemaValidationError` (carrying the consistency error list). -/
inductive LoadFailure where
  | loadError (message : String)
  | validationError (errors : List ConsistencyError)
  deriving DecidableEq, Repr

/-- Embeds `FileSchemaLoader.load_schemas`.  Reading and parsing the schema
files (`_load_base_schemas` / `_load_entity_schemas`, filesystem and YAML
library calls) is abstracted as the `loaded` argument: either the parsed
entity-schema dict or a raised loading exception.  On consistency errors a
`SchemaValidationError` is raised before `self.schemas` is assigned, so a
failed load leaves the previously loaded catalog in place. -/
def load_schemas (st : LoaderState) (loaded : Except String Catalog) (now : Nat) :
    LoaderState × Except LoadFailure Catalog :=
  match loaded with
  | .error e => (st, .error (.loadError e))
  | .ok entity_schemas =>
      let errors := validate_schema_consistency entity_schemas
      if errors = [] then
        ({ schemas := entity_schemas, last_loaded := some now }, .ok entity_schemas)
      else
        (st, .error (.validationError errors))

/-- A schema declaring `has_version` both as a required field and as a
relationship, exercising the naming-conflict check. -/
def conflictSchema : EntitySchema :=
  { entity_type := "repository"
    required_fields := [{ name := "has_version", type := "array",
                          required := true, validation := none }]
    optional_fields := []
    readonly_fields := []
    relationships := [{ name := "has_version", target_types := ["repository"],
                        cardinality := "one_to_many" }]
    dgraph_type := "Repository" }

/-- A one-entry catalog containing `conflictSchema`. -/
def conflictCatalog : Catalog := [("repository", conflictSchema)]

end SchemaLoader

/-! ## Schema change detection (`src/backend/kg/migrations/detector.py`) -/

namespace Migrations

/-- `ChangeType` from `src/backend/kg/migrations/types.py`. -/
inductive ChangeType where
  | add
  | remove
  | modify
  deriving DecidableEq, Repr

/-- `FieldChange` from the detector module. -/
structure FieldChange where
  entity_type : String
  field_name : String
  change_type : ChangeType
  old_definition : Option FieldDefinition
  new_definition : Option FieldDefinition
  deriving DecidableEq, Repr

/-- `RelationshipChange` from the detector module. -/
structure RelationshipChange where
  entity_type : String
  relationship_name : String
  change_type : ChangeType
  old_definition : Option RelationshipDefinition
  new_definition : Option RelationshipDefinition
  deriving DecidableEq, Repr

/-- `EntityTypeChange` from the detector module. -/
structure EntityTypeChange where
  entity_type : String
  change_type : ChangeType
  schema : Option EntitySchema
  deriving DecidableEq, Repr

/-- `SchemaChanges` from the detector module. -/
structure SchemaChanges where
  field_changes : List FieldChange
  relationship_changes : List RelationshipChange
  entity_type_changes : List EntityTypeChange
  deriving DecidableEq, Repr

/-- Embeds `SchemaChangeDetector._get_all_fields`: a dict built by
inserting required, optional, then readonly fields keyed by name (later
entries overwrite earlier ones of the same name). -/
def get_all_fields (s : EntitySchema) : List (String × FieldDefinition) :=
  (s.required_fields ++ s.optional_fields ++ s.readonly_fields).foldl
    (fun m fd => setKey m fd.name fd) []

/-- Dict lookup in `_get_all_fields`' result. -/
def fieldLookup (s : EntitySchema) (name : String) : Option FieldDefinition :=
  lookupKey (get_all_fields s) name

/-- The dict `{rel.name: rel for rel in schema.relationships}`. -/
def relDict (s : EntitySchema) : List (String × RelationshipDefinition) :=
  s.relationships.foldl (fun m rel => setKey m rel.name rel) []

/-- Dict lookup in the relationship dict. -/
def relLookup (s : EntitySchema) (name : String) : Option RelationshipDefinition :=
  lookupKey (relDict s) name

/-- Embeds `SchemaChangeDetector._field_definitions_differ`: the `type`,
`required` and `validation` attributes are compared (the `hasattr` guards
are always true on the dataclass). -/
def field_definitions_differ (old_def new_def : FieldDefinition) : Bool :=
  old_def.type ≠ new_def.type || old_def.required ≠ new_def.required ||
    old_def.validation ≠ new_def.validation

/-- Python `set(a) == set(b)`. -/
def sameSet (a b : List String) : Bool :=
  a.all (fun x => b.contains x) && b.all (fun x => a.contains x)

/-- Embeds `SchemaChangeDetector._relationship_definitions_differ`: the
target-type sets and the cardinality are compared. -/
def relationship_definitions_differ (old_def new_def : RelationshipDefinition) : Bool :=
  !sameSet old_def.target_types new_def.target_types ||
    old_def.cardinality ≠ new_def.cardinality

/-- Embeds `SchemaChangeDetector._detect_field_changes` for one shared
entity type: added fields, removed fields, then modified fields.  Python
iterates set differences and intersections of the name sets in hash order;
the model iterates them in dict insertion order, which changes only the
ordering of the emitted list. -/
def fieldChangesFor (t : String) (old_s new_s : EntitySchema) : List FieldChange :=
  let old_fields := get_all_fields old_s
  let new_fields := get_all_fields new_s
  let old_names := keysOf old_fields
  let new_names := keysOf new_fields
  ((new_names.filter (fun f => !old_names.contains f)).map (fun f =>
      { entity_type := t, field_name := f, change_type := ChangeType.add,
        old_definition := none, new_definition := lookupKey new_fields f }))
  ++ ((old_names.filter (fun f => !new_names.contains f)).map (fun f =>
      { entity_type := t, field_name := f, change_type := ChangeType.remove,
        old_definition := lookupKey old_fields f, new_definition := none }))
  ++ (((old_names.filter (fun f => new_names.contains f)).filter (fun f =>
        match lookupKey old_fields f, lookupKey new_fields f with
        | some od, some nd => field_definitions_differ od nd
        | _, _ => false)).map (fun f =>
      { entity_type := t, field_name := f, change_type := ChangeType.modify,
        old_definition := lookupKey old_fields f,
        new_definition := lookupKey new_fields f }))

/-- Embeds `SchemaChangeDetector._detect_relationship_changes` for one
shared entity type. -/
def relationshipChangesFor (t : String) (old_s new_s : EntitySchema) :
    List RelationshipChange :=
  let old_rels := relDict old_s
  let new_rels := relDict new_s
  let old_names := keysOf old_rels
  let new_names := keysOf new_rels
  ((new_names.filter (fun r => !old_names.contains r)).map (fun r =>
      { entity_type := t, relationship_name := r, change_type := ChangeType.add,
        old_definition := none, new_definition := lookupKey new_rels r }))
  ++ ((old_names.filter (fun r => !new_names.contains r)).map (fun r =>
      { entity_type := t, relationship_name := r, change_type := ChangeType.remove,
        old_definition := lookupKey old_rels r, new_definition := none }))
  ++ (((old_names.filter (fun r => new_names.contains r)).filter (fun r =>
        match lookupKey old_rels r, lookupKey new_rels r with
        | some od, some nd => relationship_definitions_differ od nd
        | _, _ => false)).map (fun r =>
      { entity_type := t, relationship_name := r, change_type := ChangeType.modify,
        old_definition := lookupKey old_rels r,
        new_definition := lookupKey new_rels r }))

/-- Embeds `SchemaChangeDetector.detect_changes`: entity-type additions and
removals, then per shared entity type the field and relationship
changes. -/
def detect_changes (old_schemas new_schemas : Catalog) : SchemaChanges :=
  let old_types := keysOf old_schemas
  let new_types := keysOf new_schemas
  { entity_type_changes :=
      ((new_types.filter (fun t => !old_types.contains t)).map (fun t =>
          { entity_type := t, change_type := ChangeType.add,
            schema := lookupKey new_schemas t }))
      ++ ((old_types.filter (fun t => !new_types.contains t)).map (fun t =>
          { entity_type := t, change_type := ChangeType.remove,
            schema := lookupKey old_schemas t })),
    field_changes :=
      (old_types.filter (fun t => new_types.contains t)).flatMap (fun t =>
        match lookupKey old_schemas t, lookupKey new_schemas t with
        | some os, some ns => fieldChangesFor t os ns
        | _, _ => []),
    relationship_changes :=
      (old_types.filter (fun t => new_types.contains t)).flatMap (fun t =>
        match lookupKey old_schemas t, lookupKey new_schemas t with
        | some os, some ns => relationshipChangesFor t os ns
        | _, _ => []) }

/-! ## Additive-only validation (`src/backend/kg/migrations/validator.py`) -/

/-- `ViolationType` from `src/backend/kg/migrations/types.py`. -/
inductive ViolationType where
  | field_removed
  | required_field_added
  | field_type_changed
  | field_made_required
  | relationship_removed
  | relationship_targets_removed
  | entity_type_removed
  deriving DecidableEq, Repr

/-- `ValidationViolation` from the validator module; the human message and
the definition payloads are omitted, a violation is identified by its kind,
entity type and element name. -/
structure ValidationViolation where
  violation_type : ViolationType
  entity_type : String
  element_name : String
  deriving DecidableEq, Repr

/-- Embeds `AdditiveChangeValidator._validate_field_change`.  The attribute
accesses on `old_definition` / `new_definition` assume the definitions are
present, as the detector guarantees for the change kinds that read them;
the model emits nothing when they are absent. -/
def validateFieldChange (fc : FieldChange) : List ValidationViolation :=
  match fc.change_type with
  | ChangeType.remove =>
      [{ violation_type := ViolationType.field_removed,
         entity_type := fc.entity_type, element_name := fc.field_name }]
  | ChangeType.modify =>
      match fc.old_definition, fc.new_definition with
      | some od, some nd =>
          (if od.type ≠ nd.type then
            [{ violation_type := ViolationType.field_type_changed,
               entity_type := fc.entity_type, element_name := fc.field_name }]
          else [])
          ++ (if !od.required && nd.required then
            [{ violation_type := ViolationType.field_made_required,
               entity_type := fc.entity_type, element_name := fc.field_name }]
          else [])
      | _, _ => []
  | ChangeType.add =>
      match fc.new_definition with
      | some nd =>
          if nd.required then
            [{ violation_type := ViolationType.required_field_added,
               entity_type := fc.entity_type, element_name := fc.field_name }]
          else []
      | none => []

/-- Embeds `AdditiveChangeValidator._validate_relationship_change`:
`removed_targets = set(old) - set(new)` must be empty on a modify. -/
def validateRelationshipChange (rc : RelationshipChange) : List ValidationViolation :=
  match rc.change_type with
  | ChangeType.remove =>
      [{ violation_type := ViolationType.relationship_removed,
         entity_type := rc.entity_type, element_name := rc.relationship_name }]
  | ChangeType.modify =>
      match rc.old_definition, rc.new_definition with
      | some od, some nd =>
          if (od.target_types.filter
              (fun tt => !nd.target_types.contains tt)) ≠ [] then
            [{ violation_type := ViolationType.relationship_targets_removed,
               entity_type := rc.entity_type, element_name := rc.relationship_name }]
          else []
      | _, _ => []
  | ChangeType.add => []

/-- Embeds `AdditiveChangeValidator._validate_entity_type_change`. -/
def validateEntityTypeChange (ec : EntityTypeChange) : List ValidationViolation :=
  match ec.change_type with
  | ChangeType.remove =>
      [{ violation_type := ViolationType.entity_type_removed,
         entity_type := ec.entity_type, element_name := ec.entity_type }]
  | _ => []

/-- `ValidationResult` from the validator module. -/
structure AdditiveValidationResult where
  is_valid : Bool
  violations : List ValidationViolation
  deriving DecidableEq, Repr

/-- Embeds `AdditiveChangeValidator.validate_additive_only`: field changes,
then relationship changes, then entity-type changes. -/
def validate_additive_only (changes : SchemaChanges) : AdditiveValidationResult :=
  let violations :=
    changes.field_changes.flatMap validateFieldChange
    ++ changes.relationship_changes.flatMap validateRelationshipChange
    ++ changes.entity_type_changes.flatMap validateEntityTypeChange
  { is_valid := violations.isEmpty, violations := violations }

/-- The claim's notion of a pure addition between two catalogs: every old
entity type still exists; every old field still exists with the same type,
required flag and validation; fields that are new are optional; every old
relationship still exists with the same cardinality and a target-type set
that only grew.  New entity types, new fields, new relationships and new
target types are otherwise unconstrained. -/
def pureAdditiveSpec (old_schemas new_schemas : Catalog) : Prop :=
  ∀ t os, lookupKey old_schemas t = some os →
    ∃ ns, lookupKey new_schemas t = some ns ∧
      (∀ f od, fieldLookup os f = some od →
        ∃ nd, fieldLookup ns f = some nd ∧ od.type = nd.type ∧
          od.required = nd.required ∧ od.validation = nd.validation) ∧
      (∀ f nd, fieldLookup os f = none → fieldLookup ns f = some nd →
        nd.required = false) ∧
      (∀ r od, relLookup os r = some od →
        ∃ nd, relLookup ns r = some nd ∧
          (∀ tt, tt ∈ od.target_types → tt ∈ nd.target_types) ∧
          od.cardinality = nd.cardinality)

end Migrations

/-! ## Schema version management (`src/backend/kg/migrations/version.py`) -/

namespace SchemaVersionManager

/-- Embeds `SchemaVersionManager._parse_version` applied to one dot-separated
component: Python `int(s)` on a non-negative decimal literal; `none` models
the `ValueError` raised on anything else. -/
def parseNat (s : List Char) : Option Nat :=
  if s = [] then none
  else if s.all (fun c => c.isDigit) then
    some (s.foldl (fun acc c => acc * 10 + (c.toNat - 48)) 0)
  else none

/-- Splits a character list at every occurrence of the separator, modelling
Python `str.split`. -/
def splitOnChar (sep : Char) (s : List Char) : List (List Char) :=
  match s with
  | [] => [[]]
  | c :: rest =>
      let parts := splitOnChar sep rest
      if c = sep then [] :: parts
      else
        match parts with
        | [] => [[c]]
        | p :: ps => (c :: p) :: ps

/-- Embeds `SchemaVersionManager._parse_version`: split on `"."`, require
exactly three components, parse each as an integer.  `none` models the
raised `ValueError`. -/
def parse_version (version : String) : Option (Nat × Nat × Nat) :=
  match splitOnChar '.' version.data with
  | [a, b, c] =>
      match parseNat a, parseNat b, parseNat c with
      | some x, some y, some z => some (x, y, z)
      | _, _, _ => none
  | _ => none

/-- Embeds the branch structure of
`SchemaVersionManager.is_valid_version_increment` after both versions have
been parsed into (major, minor, patch) triples. -/
def incrementCore (old new : Nat × Nat × Nat) (additive_only : Bool) : Bool :=
  let (old_major, old_minor, old_patch) := old
  let (new_major, new_minor, new_patch) := new
  if new_major > old_major then
    !additive_only
  else if new_major = old_major then
    if new_minor > old_minor then additive_only
    else decide (new_minor = old_minor ∧ new_patch > old_patch)
  else
    false

/-- Embeds `SchemaVersionManager.is_valid_version_increment`; `none` models
the `ValueError` raised by `_parse_version` on a malformed version string. -/
def is_valid_version_increment (old_version new_version : String)
    (additive_only : Bool) : Option Bool :=
  match parse_version old_version, parse_version new_version with
  | some o, some n => some (incrementCore o n additive_only)
  | _, _ => none

end SchemaVersionManager

/-! ## Validation pipeline (`src/backend/kg/validation/engine.py`,
`src/backend/kg/validation/layers.py`, `src/backend/kg/validation/errors.py`)

The engine's control flow is embedded concretely.  Layer 1's
`YamlSyntaxValidator` is embedded over an abstract `yaml.safe_load`
(external library, the `yamlParse` field).  The Layer 2-5 validator objects
(`SchemaStructureValidator`, `FieldFormatValidator`, `BusinessLogicValidator`,
`ReferenceValidator`), which the engine constructs from the schema catalog
and the storage handle in `__init__` and only ever calls through their
`validate` methods, enter the model as function-valued fields of
`ValidatorSet`.  `δ` is the type of parsed YAML documents, `μ` the type of
validated models, `σ` the storage handle type. -/

namespace Validation

/-- `ValidationError` from `errors.py`. -/
structure VError where
  type : String
  message : String
  field : Option String
  entity : Option String
  line : Option Nat
  column : Option Nat
  help : Option String
  deriving DecidableEq, Repr

/-- `ValidationWarning` from `errors.py` (no line/column). -/
structure VWarning where
  type : String
  message : String
  field : Option String
  entity : Option String
  help : Option String
  deriving DecidableEq, Repr

/-- `ValidationResult` from `errors.py`. -/
structure VResult (μ : Type) where
  is_valid : Bool
  errors : List VError
  warnings : List VWarning
  model : Option μ
  deriving DecidableEq

/-- Outcome of `yaml.safe_load` (external library): a parsed document
(`none` models Python `None` for an empty document), or a raised
`yaml.YAMLError` with its message and optional `problem_mark`
(0-based line and column). -/
inductive YamlParseOutcome (δ : Type) where
  | parsed (data : Option δ)
  | syntaxError (message : String) (problem_mark : Option (Nat × Nat))
  deriving DecidableEq

/-- Embeds `YamlSyntaxValidator.validate` (Layer 1): an empty document is
one `empty_yaml_content` error; a `yaml.YAMLError` is one
`yaml_syntax_error` carrying 1-based line and column when the error has a
`problem_mark`; otherwise the parsed data is returned. -/
def yaml_syntax_validate {δ : Type} (parse : String → YamlParseOutcome δ)
    (content : String) : Bool × Option δ × List VError :=
  match parse content with
  | YamlParseOutcome.parsed none =>
      (false, none,
        [{ type := "empty_yaml_content",
           message := "YAML content is empty or contains only whitespace",
           field := none, entity := none, line := none, column := none,
           help := some "Ensure the file contains valid YAML content" }])
  | YamlParseOutcome.parsed (some d) => (true, some d, [])
  | YamlParseOutcome.syntaxError msg mark =>
      (false, none,
        [{ type := "yaml_syntax_error",
           message := "Invalid YAML syntax: " ++ msg,
           field := none, entity := none,
           line := mark.map (fun p => p.1 + 1),
           column := mark.map (fun p => p.2 + 1),
           help := some "Ensure the file contains valid YAML syntax" }])

/-- The state of a `KnowledgeGraphValidator`: the abstract yaml parser, the
behaviours of the Layer 2-5 validator objects, the optional storage
handle, and the stored (but, in `validate`, never read) `strict_mode`
flag. -/
structure ValidatorSet (δ μ σ : Type) where
  yamlParse : String → YamlParseOutcome δ
  structureValidate : δ → List VError
  formatValidate : δ → Option μ × List VError
  businessValidate : μ → List VError
  referenceValidate : μ → List VError
  storage : Option σ
  strict_mode : Bool

/-- The engine's conversion of a `multiple_owner_domains` business error
into a `ValidationWarning`. -/
def errorToWarning (e : VError) : VWarning :=
  { type := e.type, message := e.message, field := e.field,
    entity := e.entity, help := e.help }

/-- Embeds `KnowledgeGraphValidator.validate`: Layer 1 returns immediately
on failure; Layer 2 collects structure errors and exits early when any is
critical (`missing_required_field`, `unsupported_schema_version`); Layer 3
exits with the collected errors when no model was produced; Layer 4 splits
`multiple_owner_domains` findings into warnings, the rest into errors;
Layer 5 runs only when a storage handle is present; the final result is
valid exactly when the error list is empty, with the model dropped
otherwise. -/
def validate {δ μ σ : Type} (v : ValidatorSet δ μ σ) (content : String) :
    VResult μ :=
  match yaml_syntax_validate v.yamlParse content with
  | (is_valid_yaml, dataOpt, yaml_errors) =>
    if is_valid_yaml = false then
      { is_valid := false, errors := yaml_errors, warnings := [], model := none }
    else
      let structure_errors :=
        match dataOpt with
        | some d => v.structureValidate d
        | none => []
      let critical := structure_errors.filter (fun e =>
        (["missing_required_field", "unsupported_schema_version"] :
          List String).contains e.type)
      if critical ≠ [] then
        { is_valid := false, errors := structure_errors, warnings := [],
          model := none }
      else
        let fm :=
          match dataOpt with
          | some d => v.formatValidate d
          | none => (none, [])
        let errors := structure_errors ++ fm.2
        match fm.1 with
        | none =>
            { is_valid := false, errors := errors, warnings := [], model := none }
        | some m =>
            let business_errors := v.businessValidate m
            let warnings := (business_errors.filter
              (fun e => e.type = "multiple_owner_domains")).map errorToWarning
            let errors := errors ++ business_errors.filter
              (fun e => e.type ≠ "multiple_owner_domains")
            let errors :=
              if v.storage.isSome then errors ++ v.referenceValidate m
              else errors
            { is_valid := errors.isEmpty, errors := errors,
              warnings := warnings,
              model := if errors.isEmpty then some m else none }

/-- Embeds `KnowledgeGraphValidator.validate_sync`: the same pipeline with
Layer 5 (reference validation) skipped unconditionally. -/
def validate_sync {δ μ σ : Type} (v : ValidatorSet δ μ σ) (content : String) :
    VResult μ :=
  match yaml_syntax_validate v.yamlParse content with
  | (is_valid_yaml, dataOpt, yaml_errors) =>
    if is_valid_yaml = false then
      { is_valid := false, errors := yaml_errors, warnings := [], model := none }
    else
      let structure_errors :=
        match dataOpt with
        | some d => v.structureValidate d
        | none => []
      let critical := structure_errors.filter (fun e =>
        (["missing_required_field", "unsupported_schema_version"] :
          List String).contains e.type)
      if critical ≠ [] then
        { is_valid := false, errors := structure_errors, warnings := [],
          model := none }
      else
        let fm :=
          match dataOpt with
          | some d => v.formatValidate d
          | none => (none, [])
        let errors := structure_errors ++ fm.2
        match fm.1 with
        | none =>
            { is_valid := false, errors := errors, warnings := [], model := none }
        | some m =>
            let business_errors := v.businessValidate m
            let warnings := (business_errors.filter
              (fun e => e.type = "multiple_owner_domains")).map errorToWarning
            let errors := errors ++ business_errors.filter
              (fun e => e.type ≠ "multiple_owner_domains")
            { is_valid := errors.isEmpty, errors := errors,
              warnings := warnings,
              model := if errors.isEmpty then some m else none }

/-- The CLI's conversion of a warning into an error when strict mode is on
(`src/backend/kg/cli/validate.py`): line and column are not carried over. -/
def warningToError (w : VWarning) : VError :=
  { type := w.type, message := w.message, field := w.field,
    entity := w.entity, line := none, column := none, help := w.help }

/-- Embeds the strict-mode step of the validate CLI
(`_validate_implementation`, `src/backend/kg/cli/validate.py`): when strict
mode is requested and the pipeline produced warnings, a new result is built
with the warnings appended to the errors as `ValidationError`s, `is_valid`
forced to false and the warning list emptied; otherwise the pipeline result
is passed through unchanged. -/
def apply_strict_mode {μ : Type} (strict : Bool) (result : VResult μ) :
    VResult μ :=
  if strict ∧ result.warnings.length > 0 then
    { is_valid := false
      errors := result.errors ++ result.warnings.map warningToError
      warnings := []
      model := result.model }
  else result

/-- A small concrete validator set for exercising the engine: parses every
input to a document, produces one `multiple_owner_domains` business
finding, and has no storage handle. -/
def sampleValidators : ValidatorSet Unit Unit Unit :=
  { yamlParse := fun _ => YamlParseOutcome.parsed (some ())
    structureValidate := fun _ => []
    formatValidate := fun _ => (some (), [])
    businessValidate := fun _ =>
      [{ type := "multiple_owner_domains"
         message := "Multiple email domains in namespace demo"
         field := some "owners"
         entity := none
         line := none
         column := none
         help := none }]
    referenceValidate := fun _ => []
    storage := none
    strict_mode := true }

/-- A validator set whose yaml parser raises a syntax error with a problem
mark at 0-based line 2, column 5. -/
def sampleBadYamlValidators : ValidatorSet Unit Unit Unit :=
  { sampleValidators with
    yamlParse := fun _ => YamlParseOutcome.syntaxError
      "mapping values are not allowed here" (some (2, 5)) }

end Validation

/-! ## Storage backends (`src/backend/kg/storage/mock.py`,
`src/backend/kg/storage/dgraph.py`)

Entity metadata values are modelled as strings or string lists (the value
shapes the descriptors and the apply path produce); timestamps
(`datetime.utcnow().isoformat() + "Z"` and friends) are passed in as
explicit string arguments. -/

namespace Storage

/-- A metadata value: a string or a list of strings. -/
inductive MValue where
  | str (s : String)
  | strList (l : List String)
  deriving DecidableEq, Repr

/-- One stored entity of `MockStorage`: the `complete_data` dict built by
`store_entity`. -/
structure MockEntity where
  id : String
  entity_type : String
  metadata : List (String × MValue)
  system_metadata : List (String × MValue)
  deriving DecidableEq, Repr

/-- The in-memory state of `MockStorage`: the nested dict
`entity_type -> entity_id -> entity_data`. -/
structure MockState where
  entities : List (String × List (String × MockEntity))
  deriving DecidableEq, Repr

/-- Embeds `MockStorage.store_entity`: ensure the per-type dict exists,
build `system_metadata` as the call's metadata plus a fresh `updated_at`,
add `created_at` only when the id is new for that type, then overwrite the
slot with the freshly built `complete_data`.  Note that on an update the
new `system_metadata` is built only from the call's metadata argument, so
a `created_at` stored by an earlier call is not carried over. -/
def store_entity (st : MockState) (entity_type entity_id : String)
    (entity_data metadata : List (String × MValue)) (now : String) :
    MockState × String :=
  let byType :=
    match lookupKey st.entities entity_type with
    | some m => m
    | none => []
  let system_metadata := setKey metadata "updated_at" (MValue.str now)
  let system_metadata :=
    if (lookupKey byType entity_id).isNone then
      setKey system_metadata "created_at" (MValue.str now)
    else system_metadata
  let complete_data : MockEntity :=
    { id := entity_id
      entity_type := entity_type
      metadata := entity_data
      system_metadata := system_metadata }
  ({ entities := setKey st.entities entity_type
      (setKey byType entity_id complete_data) }, entity_id)

/-- Embeds `MockStorage.get_entity`:
`self.entities.get(entity_type, {}).get(entity_id)`, returning the stored
record (the source wraps it into an `EntityData` model). -/
def get_entity (st : MockState) (entity_type entity_id : String) :
    Option MockEntity :=
  match lookupKey st.entities entity_type with
  | some m => lookupKey m entity_id
  | none => none

/-- Embeds the `mutation_data` dict built by `DgraphStorage.store_entity`:
a blank-node uid `_:⟨entity_id⟩` (so the mutation allocates a new node on
every call, with no upsert query against the existing `entity_id`), the
entity fields, the metadata under `system_metadata`, and an
unconditionally fresh `created_at`. -/
structure DgraphMutationData where
  uid : String
  dgraph_type : String
  entity_id : String
  entity_type : String
  fields : List (String × MValue)
  system_metadata : List (String × MValue)
  created_at : String
  deriving DecidableEq, Repr

/-- The mutation `DgraphStorage.store_entity` sends, as a function of its
arguments and the current time only — the existing database state is never
consulted. -/
def dgraph_store_entity_mutation (entity_type entity_id : String)
    (entity_data metadata : List (String × MValue)) (now : String) :
    DgraphMutationData :=
  { uid := "_:" ++ entity_id
    dgraph_type := entity_type
    entity_id := entity_id
    entity_type := entity_type
    fields := entity_data
    system_metadata := metadata
    created_at := now }

end Storage

/-! ## Apply orchestrator (`src/backend/kg/cli/apply.py`) -/

namespace Apply

open Storage

/-- One element of `_extract_entities_from_yaml`'s output. -/
structure EntityRecord where
  entity_type : String
  entity_id : String
  metadata : List (String × MValue)
  relationships : List (String × List String)
  system_metadata : List (String × MValue)
  deriving DecidableEq, Repr

/-- Embeds the non-dry-run storage loop of `_apply_implementation`
(`apply.py` lines 643-735): for each extracted record in order, look up the
existing entity with `get_entity`, call `store_entity`, and tally created
when the lookup returned absent, updated otherwise.  These are the only
storage calls the loop makes: `_apply_implementation` never invokes
`DependencyProcessor` or `GenericRelationshipProcessor` (those modules have
no callers outside the test suite), so no dependency expansion and no
relationship replacement happen during apply. -/
def apply_entities : List EntityRecord → MockState → String → MockState × Nat × Nat
  | [], st, _ => (st, 0, 0)
  | e :: rest, st, now =>
      let existing := get_entity st e.entity_type e.entity_id
      let st1 := (store_entity st e.entity_type e.entity_id
        e.metadata e.system_metadata now).1
      let r := apply_entities rest st1 now
      match existing with
      | some _ => (r.1, r.2.1, r.2.2 + 1)
      | none => (r.1, r.2.1 + 1, r.2.2)

/-- The S4 scenario record: one repository with an external dependency,
as `_extract_entities_from_yaml` produces it (the `depends_on` list is
flattened into the metadata for backward compatibility and kept in the
relationships map). -/
def s4Record : EntityRecord :=
  { entity_type := "repository"
    entity_id := "demo/r1"
    metadata := [("owners", MValue.strList ["a@x.com"]),
                 ("git_repo_url", MValue.str "https://github.com/x/r1"),
                 ("depends_on", MValue.strList ["external://pypi/requests/2.31.0"])]
    relationships := [("depends_on", ["external://pypi/requests/2.31.0"])]
    system_metadata := [("namespace", MValue.str "demo"),
                        ("source_name", MValue.str "r1")] }

end Apply

/-! ## Relationship processor
(`src/backend/kg/storage/relationship_processor.py`)

The processor calls `create_relationship` and
`remove_relationships_by_type` on the abstract `StorageInterface`; no
concrete backend under `src/` implements those methods (they are abstract
declarations with contract docstrings, and `DgraphStorage`/`MockStorage`
override neither).  They are therefore modelled from the spec below. -/

namespace RelationshipProcessor

/-- One graph edge, identified by the five arguments of
`create_relationship`. -/
structure Edge where
  source_entity_type : String
  source_entity_id : String
  relationship_type : String
  target_entity_type : String
  target_entity_id : String
  deriving DecidableEq, Repr

/-- The backend's relationship state: a list of edges. -/
structure GraphState where
  edges : List Edge
  deriving DecidableEq, Repr

/-- Modelled from the spec: `create_relationship(src_type, src_id, rel,
tgt_type, tgt_id)` of the storage contract (§4.10) — missing from `src/`,
where it is only an abstract `StorageInterface` method — creates the edge
and returns `True`. -/
def create_relationship (g : GraphState)
    (source_entity_type source_entity_id relationship_type
      target_entity_type target_entity_id : String) : GraphState × Bool :=
  ({ edges := g.edges ++
      [{ source_entity_type := source_entity_type
         source_entity_id := source_entity_id
         relationship_type := relationship_type
         target_entity_type := target_entity_type
         target_entity_id := target_entity_id }] }, true)

/-- Whether an edge is an outgoing edge of the given relationship type on
the given entity. -/
def edgeMatches (source_entity_type source_entity_id relationship_type : String)
    (e : Edge) : Bool :=
  e.source_entity_type = source_entity_type &&
    e.source_entity_id = source_entity_id &&
    e.relationship_type = relationship_type

/-- Modelled from the spec: `remove_relationships_by_type(src_type, src_id,
rel)` of the storage contract (§4.10) — missing from `src/`, where it is
only an abstract `StorageInterface` method — removes all relationships of
that type from the entity and returns the number removed. -/
def remove_relationships_by_type (g : GraphState)
    (source_entity_type source_entity_id relationship_type : String) :
    GraphState × Nat :=
  let removed := g.edges.filter
    (edgeMatches source_entity_type source_entity_id relationship_type)
  ({ edges := g.edges.filter (fun e =>
      !(edgeMatches source_entity_type source_entity_id relationship_type e)) },
    removed.length)

/-- Embeds
`GenericRelationshipProcessor._determine_external_dependency_type`: three
or more path segments after `external://` mean a version, otherwise a
package. -/
def determine_external_dependency_type (target_id : String) : String :=
  let uri_path := target_id.data.drop 11
  let segments := RhKg.SchemaVersionManager.splitOnChar '/' uri_path
  if segments.length ≥ 3 then "external_dependency_version"
  else "external_dependency_package"

/-- Embeds
`GenericRelationshipProcessor._determine_internal_dependency_type`. -/
def determine_internal_dependency_type
    (relationship : RelationshipDefinition) : String :=
  if relationship.target_types.contains "repository" then "repository"
  else
    match relationship.target_types with
    | t :: _ => t
    | [] => "repository"

/-- Embeds `GenericRelationshipProcessor._determine_target_entity_type`. -/
def determine_target_entity_type (relationship : RelationshipDefinition)
    (target_id : String) : String :=
  if RhKg.DependencyTypes.startsWithChars target_id.data "external://".data then
    determine_external_dependency_type target_id
  else if RhKg.DependencyTypes.startsWithChars target_id.data "internal://".data then
    determine_internal_dependency_type relationship
  else
    match relationship.target_types with
    | t :: _ => t
    | [] => "unknown"

/-- The storage calls the processor issues, in order. -/
inductive StorageCall where
  | removeByType (source_entity_type source_entity_id relationship_type : String)
  | create (source_entity_type source_entity_id relationship_type
      target_entity_type target_entity_id : String)
  deriving DecidableEq, Repr

/-- `yaml_relationships.get(relationship_name, [])`. -/
def yamlTargets (yaml_relationships : List (String × List String))
    (name : String) : List String :=
  match lookupKey yaml_relationships name with
  | some l => l
  | none => []

/-- One iteration of the processor's loop, for a single schema-declared
relationship: fetch the descriptor targets (`[]` when the name is absent),
remove all existing relationships of that type, then create one
relationship per target.  Also returns the storage calls made. -/
def processOneRelationship (g : GraphState) (entity_type entity_id : String)
    (relationship : RelationshipDefinition)
    (yaml_relationships : List (String × List String)) :
    GraphState × List StorageCall :=
  let yaml_targets := yamlTargets yaml_relationships relationship.name
  let g1 := (remove_relationships_by_type g entity_type entity_id
    relationship.name).1
  let g2 := yaml_targets.foldl (fun gacc target_id =>
    (create_relationship gacc entity_type entity_id relationship.name
      (determine_target_entity_type relationship target_id) target_id).1) g1
  (g2, StorageCall.removeByType entity_type entity_id relationship.name ::
    yaml_targets.map (fun target_id =>
      StorageCall.create entity_type entity_id relationship.name
        (determine_target_entity_type relationship target_id) target_id))

/-- The processor's loop over all schema-declared relationships. -/
def processRelationships (entity_type entity_id : String)
    (yaml_relationships : List (String × List String)) :
    List RelationshipDefinition → GraphState → GraphState × List StorageCall
  | [], g => (g, [])
  | rel :: rest, g =>
      let step := processOneRelationship g entity_type entity_id rel
        yaml_relationships
      let r := processRelationships entity_type entity_id yaml_relationships
        rest step.1
      (r.1, step.2 ++ r.2)

/-- Embeds
`GenericRelationshipProcessor.replace_entity_relationships`: `none` models
the `ValueError` raised when no schema exists for the entity type;
otherwise every relationship declared in the schema (not only the keys the
descriptor names) is removed and re-created from the descriptor.  Under the
modelled storage the create calls always succeed, so the source's `success`
flag is constantly true and is omitted. -/
def replace_entity_relationships (schemas : Catalog) (g : GraphState)
    (entity_type entity_id : String)
    (yaml_relationships : List (String × List String)) :
    Option (GraphState × List StorageCall) :=
  match lookupKey schemas entity_type with
  | none => none
  | some schema =>
      some (processRelationships entity_type entity_id yaml_relationships
        schema.relationships g)

/-- Target ids of the outgoing edges of one relationship type on one
entity. -/
def outgoing (g : GraphState)
    (source_entity_type source_entity_id relationship_type : String) :
    List String :=
  (g.edges.filter
    (edgeMatches source_entity_type source_entity_id relationship_type)).map
    (·.target_entity_id)

/-- A repository schema declaring two relationships, for exercising the
processor: one the descriptor names and one it omits. -/
def repoRelSchema : EntitySchema :=
  { entity_type := "repository"
    required_fields := []
    optional_fields := []
    readonly_fields := []
    relationships :=
      [{ name := "depends_on"
         target_types := ["external_dependency_version"]
         cardinality := "one_to_many" },
       { name := "internal_depends_on"
         target_types := ["repository"]
         cardinality := "one_to_many" }]
    dgraph_type := "Repository" }

/-- A catalog containing `repoRelSchema`. -/
def repoRelCatalog : Catalog := [("repository", repoRelSchema)]

/-- A pre-existing graph state: a stale `depends_on` edge to version 2.31.0
and a stale `internal_depends_on` edge. -/
def staleGraph : GraphState :=
  { edges :=
      [{ source_entity_type := "repository"
         source_entity_id := "demo/r1"
         relationship_type := "depends_on"
         target_entity_type := "external_dependency_version"
         target_entity_id := "external://pypi/requests/2.31.0" },
       { source_entity_type := "repository"
         source_entity_id := "demo/r1"
         relationship_type := "internal_depends_on"
         target_entity_type := "repository"
         target_entity_id := "internal://demo/r2" }] }

/-- The S5 descriptor relationships: `depends_on` now targets 2.32.0 and
`internal_depends_on` is absent. -/
def s5Relationships : List (String × List String) :=
  [("depends_on", ["external://pypi/requests/2.32.0"])]

end RelationshipProcessor

end RhKg

namespace RhKg

open SchemaVersionManager

/-- C6: the version-increment rule, as the spec states it, over parsed
semver triples: minor-up with same major requires `additive_only`; patch-up
with same major and minor is always allowed; major-up requires
`additive_only = false`; everything else (backward or zero moves) is
rejected. -/
def specIncrementRule (o n : Nat × Nat × Nat) (additive_only : Bool) : Prop :=
  (o.1 = n.1 ∧ n.2.1 > o.2.1 ∧ additive_only = true) ∨
  (o.1 = n.1 ∧ o.2.1 = n.2.1 ∧ n.2.2 > o.2.2) ∨
  (n.1 > o.1 ∧ additive_only = false)

end RhKg

/-- C6: for all semver strings that parse as (major, minor, patch) triples,
`is_valid_version_increment` returns `true` exactly when the spec's rule
allows the move: same-major minor-up with `additive_only`; same-major
same-minor patch-up; or major-up with `additive_only = false`.  Backward and
zero moves satisfy none of the disjuncts, so they are rejected. -/
theorem C6_version_increment_rule (old_version new_version : String)
    (additive_only : Bool) (o n : Nat × Nat × Nat)
    (ho : RhKg.SchemaVersionManager.parse_version old_version = some o)
    (hn : RhKg.SchemaVersionManager.parse_version new_version = some n) :
    RhKg.SchemaVersionManager.is_valid_version_increment
        old_version new_version additive_only = some true ↔
      RhKg.specIncrementRule o n additive_only := by
  obtain ⟨om, on', op⟩ := o
  obtain ⟨nm, nn, np⟩ := n
  simp only [RhKg.SchemaVersionManager.is_valid_version_increment, ho, hn,
    RhKg.SchemaVersionManager.incrementCore, RhKg.specIncrementRule,
    Option.some.injEq]
  cases additive_only <;>
    simp only [Bool.not_false, Bool.not_true, decide_eq_true_eq] <;>
    split_ifs <;> simp_all <;> omega

/-- C6 witness: a concrete run discharging the hypotheses: 1.0.0 → 1.1.0
with `additive_only = true` is accepted and satisfies the spec rule. -/
theorem C6_version_increment_rule_witness :
    RhKg.SchemaVersionManager.parse_version "1.0.0" = some (1, 0, 0) ∧
    RhKg.SchemaVersionManager.parse_version "1.1.0" = some (1, 1, 0) ∧
    RhKg.specIncrementRule (1, 0, 0) (1, 1, 0) true := by
  refine ⟨by decide, by decide, ?_⟩
  exact (C6_version_increment_rule "1.0.0" "1.1.0" true (1, 0, 0) (1, 1, 0)
    (by decide) (by decide)).mp (by decide)

namespace RhKg

/-- A key is in the key list exactly when its lookup succeeds. -/
theorem lookupKey_isSome_iff_mem {α : Type} (m : List (String × α)) (k : String) :
    (lookupKey m k).isSome ↔ k ∈ keysOf m := by
  induction m with
  | nil => simp [lookupKey, keysOf]
  | cons p rest ih =>
      obtain ⟨k', v⟩ := p
      by_cases h : k' = k
      · subst h
        simp [lookupKey, keysOf]
      · simp only [lookupKey, if_neg h, keysOf, List.map_cons, List.mem_cons]
        rw [ih]
        simp [keysOf, Ne.symm h]

/-- Lookup fails exactly on keys outside the key list. -/
theorem lookupKey_eq_none_iff_not_mem {α : Type} (m : List (String × α)) (k : String) :
    lookupKey m k = none ↔ k ∉ keysOf m := by
  rw [← lookupKey_isSome_iff_mem]
  cases lookupKey m k <;> simp

end RhKg

namespace RhKg.SchemaLoader

/-- Errors produced for a catalog entry with a key other than `t` are never
naming conflicts for `t`. -/
theorem namingConflict_count_entry_ne (cat : RhKg.Catalog) (k : String)
    (s : RhKg.EntitySchema) (t n : String) (hk : k ≠ t) :
    (schemaConsistencyErrors cat k s).count
      (ConsistencyError.namingConflict t n) = 0 := by
  rw [List.count_eq_zero]
  intro h
  simp only [schemaConsistencyErrors, List.mem_append, List.mem_flatMap,
    List.mem_map, List.mem_filter] at h
  rcases h with ((h | h) | h) | h
  · obtain ⟨rel, _, tt, _, heq⟩ := h
    exact ConsistencyError.noConfusion heq
  · split at h <;> simp at h
  · obtain ⟨m, _, heq⟩ := h
    cases heq
    exact hk rfl
  · split at h <;> simp at h

/-- A conflicting name produces exactly one naming-conflict error in its
own catalog entry. -/
theorem namingConflict_count_entry (cat : RhKg.Catalog) (t : String)
    (s : RhKg.EntitySchema) (n : String)
    (hrel : n ∈ s.relationships.map (·.name))
    (hfld : n ∈ allFieldNames s) :
    (schemaConsistencyErrors cat t s).count
      (ConsistencyError.namingConflict t n) = 1 := by
  simp only [schemaConsistencyErrors, List.count_append]
  have h1 : ((s.relationships.flatMap (fun rel =>
      (rel.target_types.filter (fun tt => (RhKg.lookupKey cat tt).isNone)).map
        (fun tt => ConsistencyError.unknownTargetType t rel.name tt))).count
      (ConsistencyError.namingConflict t n)) = 0 := by
    rw [List.count_eq_zero]
    intro h
    simp only [List.mem_flatMap, List.mem_map, List.mem_filter] at h
    obtain ⟨rel, _, tt, _, heq⟩ := h
    exact ConsistencyError.noConfusion heq
  have h2 : ((if (allFieldNames s).length ≠ (allFieldNames s).dedup.length then
      [ConsistencyError.duplicateFieldNames t] else []).count
      (ConsistencyError.namingConflict t n)) = 0 := by
    split <;> simp
  have h4 : ((if s.dgraph_type = "" then
      [ConsistencyError.missingDgraphType t] else []).count
      (ConsistencyError.namingConflict t n)) = 0 := by
    split <;> simp
  have hinj : Function.Injective (fun m => ConsistencyError.namingConflict t m) := by
    intro a b hab
    cases hab
    rfl
  have h3 : (((s.relationships.map (·.name)).dedup.filter
      (fun m => (allFieldNames s).contains m)).map
      (fun m => ConsistencyError.namingConflict t m)).count
      (ConsistencyError.namingConflict t n) = 1 := by
    rw [List.count_map_of_injective _ _ hinj]
    have hnd : ((s.relationships.map (·.name)).dedup.filter
        (fun m => (allFieldNames s).contains m)).Nodup :=
      (List.nodup_dedup _).filter _
    have hmem : n ∈ (s.relationships.map (·.name)).dedup.filter
        (fun m => (allFieldNames s).contains m) := by
      rw [List.mem_filter]
      refine ⟨List.mem_dedup.mpr hrel, ?_⟩
      simpa using hfld
    exact List.count_eq_one_of_mem hnd hmem
  omega

/-- No entry with key `t` means no naming-conflict errors for `t` at all. -/
theorem namingConflict_count_aux_zero (cat : RhKg.Catalog) (iter : RhKg.Catalog)
    (t n : String) (h : t ∉ RhKg.keysOf iter) :
    (consistencyAux cat iter).count (ConsistencyError.namingConflict t n) = 0 := by
  induction iter with
  | nil => rfl
  | cons p rest ih =>
      obtain ⟨k, s⟩ := p
      simp only [RhKg.keysOf, List.map_cons, List.mem_cons] at h
      push_neg at h
      simp only [consistencyAux, List.count_append]
      rw [namingConflict_count_entry_ne cat k s t n (fun hk => h.1 hk.symm)]
      have := ih (by simpa [RhKg.keysOf] using h.2)
      omega

/-- Naming-conflict error count over a catalog iteration with unique keys:
the entry for `t` contributes exactly one error per conflicting name. -/
theorem namingConflict_count_aux (cat : RhKg.Catalog) (iter : RhKg.Catalog)
    (t n : String) (s : RhKg.EntitySchema)
    (hnodup : (RhKg.keysOf iter).Nodup) (hmem : (t, s) ∈ iter)
    (hrel : n ∈ s.relationships.map (·.name))
    (hfld : n ∈ allFieldNames s) :
    (consistencyAux cat iter).count (ConsistencyError.namingConflict t n) = 1 := by
  induction iter with
  | nil => cases hmem
  | cons p rest ih =>
      obtain ⟨k, sch⟩ := p
      simp only [consistencyAux, List.count_append]
      simp only [RhKg.keysOf, List.map_cons, List.nodup_cons] at hnodup
      rcases List.mem_cons.mp hmem with heq | hrest
      · cases heq
        rw [namingConflict_count_entry cat t s n hrel hfld]
        rw [namingConflict_count_aux_zero cat rest t n (by simpa [RhKg.keysOf] using hnodup.1)]
      · have ht : t ∈ RhKg.keysOf rest := by
          simpa [RhKg.keysOf] using List.mem_map_of_mem (·.1) hrest
        have hk : k ≠ t := by
          intro hk
          exact hnodup.1 (hk ▸ ht)
        rw [namingConflict_count_entry_ne cat k sch t n hk]
        have := ih hnodup.2 hrest
        omega

end RhKg.SchemaLoader

/-- C8: loading a catalog in which some schema defines the same name as
both a field and a relationship fails: `validate_schema_consistency`
produces exactly one naming-conflict error for that entity type and name,
`load_schemas` raises a `SchemaValidationError` carrying those errors
instead of returning, and the loader's previously loaded catalog (its
state) is left in place. -/
theorem C8_naming_conflict_fails_load (st : RhKg.SchemaLoader.LoaderState)
    (now : Nat) (cat : RhKg.Catalog) (t : String) (s : RhKg.EntitySchema)
    (n : String) (hnodup : (RhKg.keysOf cat).Nodup) (hmem : (t, s) ∈ cat)
    (hrel : n ∈ s.relationships.map (·.name))
    (hfld : n ∈ RhKg.SchemaLoader.allFieldNames s) :
    (RhKg.SchemaLoader.validate_schema_consistency cat).count
        (RhKg.SchemaLoader.ConsistencyError.namingConflict t n) = 1 ∧
    RhKg.SchemaLoader.load_schemas st (Except.ok cat) now =
      (st, Except.error (RhKg.SchemaLoader.LoadFailure.validationError
        (RhKg.SchemaLoader.validate_schema_consistency cat))) := by
  have hcount : (RhKg.SchemaLoader.validate_schema_consistency cat).count
      (RhKg.SchemaLoader.ConsistencyError.namingConflict t n) = 1 :=
    RhKg.SchemaLoader.namingConflict_count_aux cat cat t n s hnodup hmem hrel hfld
  refine ⟨hcount, ?_⟩
  have hne : RhKg.SchemaLoader.validate_schema_consistency cat ≠ [] := by
    intro h
    rw [h] at hcount
    simp at hcount
  simp [RhKg.SchemaLoader.load_schemas, hne]

/-- C8 witness: a catalog whose repository schema declares `has_version`
both as a field and as a relationship fails to load, leaving the loader
state unchanged. -/
theorem C8_naming_conflict_fails_load_witness :
    (RhKg.SchemaLoader.validate_schema_consistency
        RhKg.SchemaLoader.conflictCatalog).count
      (RhKg.SchemaLoader.ConsistencyError.namingConflict
        "repository" "has_version") = 1 ∧
    RhKg.SchemaLoader.load_schemas
        { schemas := [], last_loaded := none }
        (Except.ok RhKg.SchemaLoader.conflictCatalog) 7 =
      ({ schemas := [], last_loaded := none }, Except.error
        (RhKg.SchemaLoader.LoadFailure.validationError
          (RhKg.SchemaLoader.validate_schema_consistency
            RhKg.SchemaLoader.conflictCatalog))) :=
  C8_naming_conflict_fails_load { schemas := [], last_loaded := none } 7
    RhKg.SchemaLoader.conflictCatalog "repository"
    RhKg.SchemaLoader.conflictSchema "has_version"
    (by simp [RhKg.SchemaLoader.conflictCatalog, RhKg.keysOf])
    (by simp [RhKg.SchemaLoader.conflictCatalog])
    (by simp [RhKg.SchemaLoader.conflictSchema])
    (by simp [RhKg.SchemaLoader.conflictSchema, RhKg.SchemaLoader.allFieldNames,
      RhKg.SchemaLoader.conflictCatalog])

namespace RhKg.DependencyTypes

/-- `startswith` succeeds on any string extending the pattern. -/
theorem startsWithChars_append (p r : List Char) :
    startsWithChars (p ++ r) p = true := by
  induction p with
  | nil => cases r <;> rfl
  | cons c cs ih => simp [startsWithChars, ih]

/-- `takeWhile (· ≠ '/')` collects exactly the slash-free block before an
explicit slash. -/
theorem takeWhile_slash (l r : List Char) (h : '/' ∉ l) :
    (l ++ '/' :: r).takeWhile (fun c => c ≠ '/') = l := by
  induction l with
  | nil => simp
  | cons c cs ih =>
      have hc : c ≠ '/' := fun hc => h (hc ▸ List.mem_cons_self c cs)
      have hcs : '/' ∉ cs := fun hm => h (List.mem_cons_of_mem c hm)
      have ih' := ih hcs
      simp only [List.cons_append, List.takeWhile_cons, decide_not] at ih' ⊢
      simp [hc, ih']

/-- `dropWhile (· ≠ '/')` stops exactly at the first explicit slash. -/
theorem dropWhile_slash (l r : List Char) (h : '/' ∉ l) :
    (l ++ '/' :: r).dropWhile (fun c => c ≠ '/') = '/' :: r := by
  induction l with
  | nil => simp
  | cons c cs ih =>
      have hc : c ≠ '/' := fun hc => h (hc ▸ List.mem_cons_self c cs)
      have hcs : '/' ∉ cs := fun hm => h (List.mem_cons_of_mem c hm)
      have ih' := ih hcs
      simp only [List.cons_append, List.dropWhile_cons, decide_not] at ih' ⊢
      simp [hc, ih']

end RhKg.DependencyTypes

/-- C10 counterexample: the round trip fails for a package containing a
newline.  `"a\nb"` is a non-empty package string (the claim's only
condition on the package), yet `parse_uri` on the built URI returns `None`:
the regex group `(.+)` — Python `.` without `re.DOTALL` — cannot match the
newline inside the package span. -/
theorem C10_builder_parser_roundtrip_counterexample :
    "a\n".data ++ "b".data ≠ ([] : List Char) ∧
    RhKg.DependencyTypes.parse_external_dependency
        (RhKg.DependencyTypes.builder_external
          "pypi".data ("a\n".data ++ "b".data) "1.0".data) = none := by
  refine ⟨by decide, by decide⟩

/-- C10 (amended): builder/parser round trip.  For every non-empty
slash-free ecosystem, non-empty **newline-free** package name, and
non-empty slash-free version, parsing the URI built by
`DependencyUriBuilder.external` with `parse_external_dependency` succeeds
and returns exactly those components, with
`package_id = "external://⟨eco⟩/⟨pkg⟩"` and `version_id` the full URI.
(A newline in the package falls inside the regex's `(.+)` group, which
Python's `.` does not match, so the unamended claim fails there.) -/
theorem C10_builder_parser_roundtrip (eco pkg ver : List Char)
    (heco : eco ≠ []) (hecoSlash : '/' ∉ eco)
    (hpkg : pkg ≠ []) (hpkgNl : '\n' ∉ pkg)
    (hver : ver ≠ []) (hverSlash : '/' ∉ ver) :
    RhKg.DependencyTypes.parse_external_dependency
        (RhKg.DependencyTypes.builder_external eco pkg ver) =
      some
        { ecosystem := eco
          package_name := pkg
          version := ver
          package_id := RhKg.DependencyTypes.externalScheme ++ eco ++ '/' :: pkg
          version_id := RhKg.DependencyTypes.builder_external eco pkg ver
          uri := RhKg.DependencyTypes.builder_external eco pkg ver } := by
  open RhKg.DependencyTypes in
  have hrev : (pkg ++ '/' :: ver).reverse = ver.reverse ++ '/' :: pkg.reverse := by
    simp [List.reverse_append]
  have hverRev : '/' ∉ ver.reverse := by simpa using hverSlash
  have hverRevNe : ver.reverse ≠ [] := by simpa using hver
  have hpkgRevNe : pkg.reverse ≠ [] := by simpa using hpkg
  unfold RhKg.DependencyTypes.parse_external_dependency
  rw [show RhKg.DependencyTypes.builder_external eco pkg ver =
      externalScheme ++ (eco ++ '/' :: (pkg ++ '/' :: ver)) from rfl]
  rw [show RhKg.DependencyTypes.matches_uri_external
        (externalScheme ++ (eco ++ '/' :: (pkg ++ '/' :: ver))) = true from
      startsWithChars_append _ _]
  simp only [if_true, List.drop_left]
  unfold RhKg.DependencyTypes.matchExternalGroups
  rw [takeWhile_slash _ _ hecoSlash, dropWhile_slash _ _ hecoSlash]
  simp only [hrev]
  rw [takeWhile_slash _ _ hverRev, dropWhile_slash _ _ hverRev]
  simp [heco, hpkg, hpkgNl, hver, hverRevNe, hpkgRevNe, List.append_assoc]

/-- C10 witness: the round trip evaluated at
`external://pypi/requests/2.31.0`. -/
theorem C10_builder_parser_roundtrip_witness :
    RhKg.DependencyTypes.parse_external_dependency
        (RhKg.DependencyTypes.builder_external
          "pypi".data "requests".data "2.31.0".data) =
      some
        { ecosystem := "pypi".data
          package_name := "requests".data
          version := "2.31.0".data
          package_id := RhKg.DependencyTypes.externalScheme ++ "pypi".data ++
            '/' :: "requests".data
          version_id := RhKg.DependencyTypes.builder_external
            "pypi".data "requests".data "2.31.0".data
          uri := RhKg.DependencyTypes.builder_external
            "pypi".data "requests".data "2.31.0".data } :=
  C10_builder_parser_roundtrip "pypi".data "requests".data "2.31.0".data
    (by decide) (by decide) (by decide) (by decide) (by decide) (by decide)

namespace RhKg.Migrations

/-- Bridge between `List.contains` and membership for strings. -/
theorem scontains_true {l : List String} {a : String} :
    l.contains a = true ↔ a ∈ l := by
  simp

/-- Negative form of the bridge. -/
theorem scontains_false {l : List String} {a : String} :
    l.contains a = false ↔ a ∉ l := by
  rw [← scontains_true]
  cases h : l.contains a <;> simp

/-- A field change produced for a shared entity type is among the detected
field changes. -/
theorem mem_detected_field_changes (old_schemas new_schemas : RhKg.Catalog)
    (t : String) (os ns : RhKg.EntitySchema) (fc : FieldChange)
    (ho : RhKg.lookupKey old_schemas t = some os)
    (hn : RhKg.lookupKey new_schemas t = some ns)
    (hfc : fc ∈ fieldChangesFor t os ns) :
    fc ∈ (detect_changes old_schemas new_schemas).field_changes := by
  simp only [detect_changes, List.mem_flatMap]
  refine ⟨t, ?_, ?_⟩
  · rw [List.mem_filter]
    refine ⟨?_, ?_⟩
    · exact (RhKg.lookupKey_isSome_iff_mem old_schemas t).mp (by simp [ho])
    · exact scontains_true.mpr
        ((RhKg.lookupKey_isSome_iff_mem new_schemas t).mp (by simp [hn]))
  · simp only [ho, hn]
    exact hfc

/-- A relationship change produced for a shared entity type is among the
detected relationship changes. -/
theorem mem_detected_rel_changes (old_schemas new_schemas : RhKg.Catalog)
    (t : String) (os ns : RhKg.EntitySchema) (rc : RelationshipChange)
    (ho : RhKg.lookupKey old_schemas t = some os)
    (hn : RhKg.lookupKey new_schemas t = some ns)
    (hrc : rc ∈ relationshipChangesFor t os ns) :
    rc ∈ (detect_changes old_schemas new_schemas).relationship_changes := by
  simp only [detect_changes, List.mem_flatMap]
  refine ⟨t, ?_, ?_⟩
  · rw [List.mem_filter]
    refine ⟨?_, ?_⟩
    · exact (RhKg.lookupKey_isSome_iff_mem old_schemas t).mp (by simp [ho])
    · exact scontains_true.mpr
        ((RhKg.lookupKey_isSome_iff_mem new_schemas t).mp (by simp [hn]))
  · simp only [ho, hn]
    exact hrc

/-- A violation of a field change is among the final violations. -/
theorem mem_violations_of_field (changes : SchemaChanges) (fc : FieldChange)
    (v : ValidationViolation) (hfc : fc ∈ changes.field_changes)
    (hv : v ∈ validateFieldChange fc) :
    v ∈ (validate_additive_only changes).violations := by
  simp only [validate_additive_only, List.mem_append, List.mem_flatMap]
  exact Or.inl (Or.inl ⟨fc, hfc, hv⟩)

/-- A violation of a relationship change is among the final violations. -/
theorem mem_violations_of_rel (changes : SchemaChanges) (rc : RelationshipChange)
    (v : ValidationViolation) (hrc : rc ∈ changes.relationship_changes)
    (hv : v ∈ validateRelationshipChange rc) :
    v ∈ (validate_additive_only changes).violations := by
  simp only [validate_additive_only, List.mem_append, List.mem_flatMap]
  exact Or.inl (Or.inr ⟨rc, hrc, hv⟩)

/-- A violation of an entity-type change is among the final violations. -/
theorem mem_violations_of_entity (changes : SchemaChanges) (ec : EntityTypeChange)
    (v : ValidationViolation) (hec : ec ∈ changes.entity_type_changes)
    (hv : v ∈ validateEntityTypeChange ec) :
    v ∈ (validate_additive_only changes).violations := by
  simp only [validate_additive_only, List.mem_append, List.mem_flatMap]
  exact Or.inr ⟨ec, hec, hv⟩

end RhKg.Migrations

namespace RhKg.Migrations

/-- Pure additions produce no violations: every detected change under a
purely additive evolution is either an addition (never a violation) or a
relationship modification that only grew the target-type set. -/
theorem pureAdditive_no_violations (old_schemas new_schemas : RhKg.Catalog)
    (h : pureAdditiveSpec old_schemas new_schemas) :
    (validate_additive_only
      (detect_changes old_schemas new_schemas)).violations = [] := by
  rw [List.eq_nil_iff_forall_not_mem]
  intro v hv
  simp only [validate_additive_only, List.mem_append, List.mem_flatMap] at hv
  rcases hv with (⟨fc, hfc, hvfc⟩ | ⟨rc, hrc, hvrc⟩) | ⟨ec, hec, hvec⟩
  · simp only [detect_changes, List.mem_flatMap] at hfc
    obtain ⟨t, ht, hfc⟩ := hfc
    rw [List.mem_filter] at ht
    obtain ⟨htold, _⟩ := ht
    obtain ⟨os, hos⟩ := Option.isSome_iff_exists.mp
      ((RhKg.lookupKey_isSome_iff_mem old_schemas t).mpr htold)
    obtain ⟨ns, hns, hfields, hnewfields, _⟩ := h t os hos
    simp only [hos, hns] at hfc
    simp only [fieldChangesFor, List.mem_append, List.mem_map,
      List.mem_filter] at hfc
    rcases hfc with (⟨f, hf, heq⟩ | ⟨f, hf, heq⟩) | ⟨f, hf, heq⟩
    · subst heq
      obtain ⟨hfnew, hfnotold⟩ := hf
      obtain ⟨nd, hnd⟩ := Option.isSome_iff_exists.mp
        ((RhKg.lookupKey_isSome_iff_mem (get_all_fields ns) f).mpr hfnew)
      have hold_none : RhKg.lookupKey (get_all_fields os) f = none :=
        (RhKg.lookupKey_eq_none_iff_not_mem _ _).mpr (scontains_false.mp (by simpa using hfnotold))
      have hreq : nd.required = false := hnewfields f nd hold_none hnd
      simp [validateFieldChange, hnd, hreq] at hvfc
    · subst heq
      obtain ⟨hfold, hfnotnew⟩ := hf
      obtain ⟨od, hod⟩ := Option.isSome_iff_exists.mp
        ((RhKg.lookupKey_isSome_iff_mem (get_all_fields os) f).mpr hfold)
      obtain ⟨nd, hnd, _⟩ := hfields f od hod
      have hnd' : RhKg.lookupKey (get_all_fields ns) f = some nd := hnd
      have hmemnew : f ∈ RhKg.keysOf (get_all_fields ns) :=
        (RhKg.lookupKey_isSome_iff_mem (get_all_fields ns) f).mp (by simp [hnd'])
      exact absurd hmemnew (scontains_false.mp (by simpa using hfnotnew))
    · subst heq
      obtain ⟨⟨hfold, _⟩, hdiff⟩ := hf
      obtain ⟨od, hod⟩ := Option.isSome_iff_exists.mp
        ((RhKg.lookupKey_isSome_iff_mem (get_all_fields os) f).mpr hfold)
      obtain ⟨nd, hnd, hty, hreq, hval⟩ := hfields f od hod
      have hnd' : RhKg.lookupKey (get_all_fields ns) f = some nd := hnd
      rw [hod, hnd'] at hdiff
      simp [field_definitions_differ, hty, hreq, hval] at hdiff
  · simp only [detect_changes, List.mem_flatMap] at hrc
    obtain ⟨t, ht, hrc⟩ := hrc
    rw [List.mem_filter] at ht
    obtain ⟨htold, _⟩ := ht
    obtain ⟨os, hos⟩ := Option.isSome_iff_exists.mp
      ((RhKg.lookupKey_isSome_iff_mem old_schemas t).mpr htold)
    obtain ⟨ns, hns, _, _, hrels⟩ := h t os hos
    simp only [hos, hns] at hrc
    simp only [relationshipChangesFor, List.mem_append, List.mem_map,
      List.mem_filter] at hrc
    rcases hrc with (⟨r, hr, heq⟩ | ⟨r, hr, heq⟩) | ⟨r, hr, heq⟩
    · subst heq
      simp [validateRelationshipChange] at hvrc
    · subst heq
      obtain ⟨hrold, hrnotnew⟩ := hr
      obtain ⟨od, hod⟩ := Option.isSome_iff_exists.mp
        ((RhKg.lookupKey_isSome_iff_mem (relDict os) r).mpr hrold)
      obtain ⟨nd, hnd, _⟩ := hrels r od hod
      have hnd' : RhKg.lookupKey (relDict ns) r = some nd := hnd
      have hmemnew : r ∈ RhKg.keysOf (relDict ns) :=
        (RhKg.lookupKey_isSome_iff_mem (relDict ns) r).mp (by simp [hnd'])
      exact absurd hmemnew (scontains_false.mp (by simpa using hrnotnew))
    · subst heq
      obtain ⟨⟨hrold, _⟩, _⟩ := hr
      obtain ⟨od, hod⟩ := Option.isSome_iff_exists.mp
        ((RhKg.lookupKey_isSome_iff_mem (relDict os) r).mpr hrold)
      obtain ⟨nd, hnd, hsub, _⟩ := hrels r od hod
      have hnd' : RhKg.lookupKey (relDict ns) r = some nd := hnd
      have hno : ¬ ∃ tt ∈ od.target_types, tt ∉ nd.target_types := by
        rintro ⟨tt, htt, hnotin⟩
        exact hnotin (hsub tt htt)
      simp [validateRelationshipChange, hod, hnd', hno] at hvrc
  · simp only [detect_changes, List.mem_append, List.mem_map,
      List.mem_filter] at hec
    rcases hec with ⟨t, ht, heq⟩ | ⟨t, ht, heq⟩
    · subst heq
      simp [validateEntityTypeChange] at hvec
    · subst heq
      obtain ⟨htold, htnotnew⟩ := ht
      obtain ⟨os, hos⟩ := Option.isSome_iff_exists.mp
        ((RhKg.lookupKey_isSome_iff_mem old_schemas t).mpr htold)
      obtain ⟨ns, hns, _⟩ := h t os hos
      have hmemnew : t ∈ RhKg.keysOf new_schemas :=
        (RhKg.lookupKey_isSome_iff_mem new_schemas t).mp (by simp [hns])
      exact absurd hmemnew (scontains_false.mp (by simpa using htnotnew))

/-- The pure-addition relation is reflexive. -/
theorem pureAdditiveSpec_refl (c : RhKg.Catalog) : pureAdditiveSpec c c := by
  intro t os hos
  refine ⟨os, hos, ?_, ?_, ?_⟩
  · intro f od hf
    exact ⟨od, hf, rfl, rfl, rfl⟩
  · intro f nd h0 h1
    rw [h0] at h1
    cases h1
  · intro r od hr
    exact ⟨od, hr, fun tt htt => htt, rfl⟩

end RhKg.Migrations

/-- C7: over any pair of catalogs, the additive-only validator (driven by
the change detector) rejects, with its specifically named violation kind,
every removal of a field, relationship or entity type, every addition of a
required field, every change of a field's type, every promotion of an
optional field to required, and every shrinking of a relationship's
target-type set; and it reports no violation at all for purely additive
evolutions, in particular for identical catalogs. -/
theorem C7_additive_only_validation (old_schemas new_schemas : RhKg.Catalog)
    (V : List RhKg.Migrations.ValidationViolation)
    (hV : V = (RhKg.Migrations.validate_additive_only
      (RhKg.Migrations.detect_changes old_schemas new_schemas)).violations) :
    (∀ t os, RhKg.lookupKey old_schemas t = some os →
      RhKg.lookupKey new_schemas t = none →
      (⟨RhKg.Migrations.ViolationType.entity_type_removed, t, t⟩ :
        RhKg.Migrations.ValidationViolation) ∈ V) ∧
    (∀ t os ns f, RhKg.lookupKey old_schemas t = some os →
      RhKg.lookupKey new_schemas t = some ns →
      (RhKg.Migrations.fieldLookup os f).isSome →
      RhKg.Migrations.fieldLookup ns f = none →
      (⟨RhKg.Migrations.ViolationType.field_removed, t, f⟩ :
        RhKg.Migrations.ValidationViolation) ∈ V) ∧
    (∀ t os ns r, RhKg.lookupKey old_schemas t = some os →
      RhKg.lookupKey new_schemas t = some ns →
      (RhKg.Migrations.relLookup os r).isSome →
      RhKg.Migrations.relLookup ns r = none →
      (⟨RhKg.Migrations.ViolationType.relationship_removed, t, r⟩ :
        RhKg.Migrations.ValidationViolation) ∈ V) ∧
    (∀ t os ns f nd, RhKg.lookupKey old_schemas t = some os →
      RhKg.lookupKey new_schemas t = some ns →
      RhKg.Migrations.fieldLookup os f = none →
      RhKg.Migrations.fieldLookup ns f = some nd → nd.required = true →
      (⟨RhKg.Migrations.ViolationType.required_field_added, t, f⟩ :
        RhKg.Migrations.ValidationViolation) ∈ V) ∧
    (∀ t os ns f od nd, RhKg.lookupKey old_schemas t = some os →
      RhKg.lookupKey new_schemas t = some ns →
      RhKg.Migrations.fieldLookup os f = some od →
      RhKg.Migrations.fieldLookup ns f = some nd → od.type ≠ nd.type →
      (⟨RhKg.Migrations.ViolationType.field_type_changed, t, f⟩ :
        RhKg.Migrations.ValidationViolation) ∈ V) ∧
    (∀ t os ns f od nd, RhKg.lookupKey old_schemas t = some os →
      RhKg.lookupKey new_schemas t = some ns →
      RhKg.Migrations.fieldLookup os f = some od →
      RhKg.Migrations.fieldLookup ns f = some nd →
      od.required = false → nd.required = true →
      (⟨RhKg.Migrations.ViolationType.field_made_required, t, f⟩ :
        RhKg.Migrations.ValidationViolation) ∈ V) ∧
    (∀ t os ns r od nd tt, RhKg.lookupKey old_schemas t = some os →
      RhKg.lookupKey new_schemas t = some ns →
      RhKg.Migrations.relLookup os r = some od →
      RhKg.Migrations.relLookup ns r = some nd →
      tt ∈ od.target_types → tt ∉ nd.target_types →
      (⟨RhKg.Migrations.ViolationType.relationship_targets_removed, t, r⟩ :
        RhKg.Migrations.ValidationViolation) ∈ V) ∧
    (RhKg.Migrations.pureAdditiveSpec old_schemas new_schemas → V = []) ∧
    (old_schemas = new_schemas → V = []) := by
  open RhKg.Migrations in
  subst hV
  refine ⟨?_, ?_, ?_, ?_, ?_, ?_, ?_, ?_, ?_⟩
  · intro t os h1 h2
    have hmem : t ∈ RhKg.keysOf old_schemas :=
      (RhKg.lookupKey_isSome_iff_mem old_schemas t).mp (by simp [h1])
    have hnot : t ∉ RhKg.keysOf new_schemas :=
      (RhKg.lookupKey_eq_none_iff_not_mem new_schemas t).mp h2
    refine mem_violations_of_entity _
      ⟨t, ChangeType.remove, RhKg.lookupKey old_schemas t⟩ _ ?_ ?_
    · simp only [detect_changes, List.mem_append, List.mem_map, List.mem_filter]
      right
      exact ⟨t, ⟨hmem, by simpa using hnot⟩, rfl⟩
    · simp [validateEntityTypeChange]
  · intro t os ns f h1 h2 h3 h4
    have hmem : f ∈ RhKg.keysOf (get_all_fields os) :=
      (RhKg.lookupKey_isSome_iff_mem (get_all_fields os) f).mp h3
    have hnot : f ∉ RhKg.keysOf (get_all_fields ns) :=
      (RhKg.lookupKey_eq_none_iff_not_mem (get_all_fields ns) f).mp h4
    refine mem_violations_of_field _
      ⟨t, f, ChangeType.remove, RhKg.lookupKey (get_all_fields os) f, none⟩ _
      (mem_detected_field_changes old_schemas new_schemas t os ns _ h1 h2 ?_) ?_
    · simp only [fieldChangesFor, List.mem_append, List.mem_map, List.mem_filter]
      left
      right
      exact ⟨f, ⟨hmem, by simpa using hnot⟩, rfl⟩
    · simp [validateFieldChange]
  · intro t os ns r h1 h2 h3 h4
    have hmem : r ∈ RhKg.keysOf (relDict os) :=
      (RhKg.lookupKey_isSome_iff_mem (relDict os) r).mp h3
    have hnot : r ∉ RhKg.keysOf (relDict ns) :=
      (RhKg.lookupKey_eq_none_iff_not_mem (relDict ns) r).mp h4
    refine mem_violations_of_rel _
      ⟨t, r, ChangeType.remove, RhKg.lookupKey (relDict os) r, none⟩ _
      (mem_detected_rel_changes old_schemas new_schemas t os ns _ h1 h2 ?_) ?_
    · simp only [relationshipChangesFor, List.mem_append, List.mem_map,
        List.mem_filter]
      left
      right
      exact ⟨r, ⟨hmem, by simpa using hnot⟩, rfl⟩
    · simp [validateRelationshipChange]
  · intro t os ns f nd h1 h2 h3 h4 h5
    have hnd : RhKg.lookupKey (get_all_fields ns) f = some nd := h4
    have hmem : f ∈ RhKg.keysOf (get_all_fields ns) :=
      (RhKg.lookupKey_isSome_iff_mem (get_all_fields ns) f).mp (by simp [hnd])
    have hnot : f ∉ RhKg.keysOf (get_all_fields os) :=
      (RhKg.lookupKey_eq_none_iff_not_mem (get_all_fields os) f).mp h3
    refine mem_violations_of_field _
      ⟨t, f, ChangeType.add, none, RhKg.lookupKey (get_all_fields ns) f⟩ _
      (mem_detected_field_changes old_schemas new_schemas t os ns _ h1 h2 ?_) ?_
    · simp only [fieldChangesFor, List.mem_append, List.mem_map, List.mem_filter]
      left
      left
      exact ⟨f, ⟨hmem, by simpa using hnot⟩, rfl⟩
    · simp [validateFieldChange, hnd, h5]
  · intro t os ns f od nd h1 h2 h3 h4 h5
    have hod : RhKg.lookupKey (get_all_fields os) f = some od := h3
    have hnd : RhKg.lookupKey (get_all_fields ns) f = some nd := h4
    have hmemo : f ∈ RhKg.keysOf (get_all_fields os) :=
      (RhKg.lookupKey_isSome_iff_mem (get_all_fields os) f).mp (by simp [hod])
    have hmemn : f ∈ RhKg.keysOf (get_all_fields ns) :=
      (RhKg.lookupKey_isSome_iff_mem (get_all_fields ns) f).mp (by simp [hnd])
    refine mem_violations_of_field _
      ⟨t, f, ChangeType.modify, RhKg.lookupKey (get_all_fields os) f,
        RhKg.lookupKey (get_all_fields ns) f⟩ _
      (mem_detected_field_changes old_schemas new_schemas t os ns _ h1 h2 ?_) ?_
    · simp only [fieldChangesFor, List.mem_append, List.mem_map, List.mem_filter]
      right
      refine ⟨f, ⟨⟨hmemo, scontains_true.mpr hmemn⟩, ?_⟩, rfl⟩
      rw [hod, hnd]
      simp [field_definitions_differ, h5]
    · simp [validateFieldChange, hod, hnd, h5]
  · intro t os ns f od nd h1 h2 h3 h4 h5 h6
    have hod : RhKg.lookupKey (get_all_fields os) f = some od := h3
    have hnd : RhKg.lookupKey (get_all_fields ns) f = some nd := h4
    have hmemo : f ∈ RhKg.keysOf (get_all_fields os) :=
      (RhKg.lookupKey_isSome_iff_mem (get_all_fields os) f).mp (by simp [hod])
    have hmemn : f ∈ RhKg.keysOf (get_all_fields ns) :=
      (RhKg.lookupKey_isSome_iff_mem (get_all_fields ns) f).mp (by simp [hnd])
    refine mem_violations_of_field _
      ⟨t, f, ChangeType.modify, RhKg.lookupKey (get_all_fields os) f,
        RhKg.lookupKey (get_all_fields ns) f⟩ _
      (mem_detected_field_changes old_schemas new_schemas t os ns _ h1 h2 ?_) ?_
    · simp only [fieldChangesFor, List.mem_append, List.mem_map, List.mem_filter]
      right
      refine ⟨f, ⟨⟨hmemo, scontains_true.mpr hmemn⟩, ?_⟩, rfl⟩
      rw [hod, hnd]
      simp [field_definitions_differ, h5, h6]
    · simp [validateFieldChange, hod, hnd, h5, h6]
  · intro t os ns r od nd tt h1 h2 h3 h4 h5 h6
    have hod : RhKg.lookupKey (relDict os) r = some od := h3
    have hnd : RhKg.lookupKey (relDict ns) r = some nd := h4
    have hmemo : r ∈ RhKg.keysOf (relDict os) :=
      (RhKg.lookupKey_isSome_iff_mem (relDict os) r).mp (by simp [hod])
    have hmemn : r ∈ RhKg.keysOf (relDict ns) :=
      (RhKg.lookupKey_isSome_iff_mem (relDict ns) r).mp (by simp [hnd])
    have hall : od.target_types.all (fun x => nd.target_types.contains x) = false := by
      rw [List.all_eq_false]
      exact ⟨tt, h5, by simpa using h6⟩
    refine mem_violations_of_rel _
      ⟨t, r, ChangeType.modify, RhKg.lookupKey (relDict os) r,
        RhKg.lookupKey (relDict ns) r⟩ _
      (mem_detected_rel_changes old_schemas new_schemas t os ns _ h1 h2 ?_) ?_
    · simp only [relationshipChangesFor, List.mem_append, List.mem_map,
        List.mem_filter]
      right
      refine ⟨r, ⟨⟨hmemo, scontains_true.mpr hmemn⟩, ?_⟩, rfl⟩
      rw [hod, hnd]
      simp only [relationship_definitions_differ, sameSet]
      simp
      exact Or.inl (Or.inl ⟨tt, h5, h6⟩)
    · have hne : ∃ x ∈ od.target_types, x ∉ nd.target_types := ⟨tt, h5, h6⟩
      simp [validateRelationshipChange, hod, hnd, hne]
  · intro h
    exact pureAdditive_no_violations old_schemas new_schemas h
  · intro heq
    subst heq
    exact pureAdditive_no_violations old_schemas old_schemas
      (pureAdditiveSpec_refl old_schemas)

/-- C7 witness: removing the only entity type of a one-schema catalog is
rejected with an `entity_type_removed` violation. -/
theorem C7_additive_only_validation_witness :
    (⟨RhKg.Migrations.ViolationType.entity_type_removed,
        "repository", "repository"⟩ : RhKg.Migrations.ValidationViolation) ∈
      (RhKg.Migrations.validate_additive_only
        (RhKg.Migrations.detect_changes
          RhKg.SchemaLoader.conflictCatalog [])).violations :=
  (C7_additive_only_validation RhKg.SchemaLoader.conflictCatalog [] _ rfl).1
    "repository" RhKg.SchemaLoader.conflictSchema (by decide) (by decide)

/-- C5: `validate_sync` returns exactly the result of the async `validate`
when no storage handle is supplied: with `storage = none` the Layer 5 guard
in `validate` is never taken, and the two pipelines are otherwise
identical, for every yaml parser, every layer behaviour and every input. -/
theorem C5_validate_sync_equals_validate_without_storage {δ μ σ : Type}
    (v : RhKg.Validation.ValidatorSet δ μ σ) (content : String)
    (h : v.storage = none) :
    RhKg.Validation.validate v content =
      RhKg.Validation.validate_sync v content := by
  unfold RhKg.Validation.validate RhKg.Validation.validate_sync
  rw [h]
  simp

/-- C9: when the YAML parse raises a syntax error, the pipeline returns
immediately with `is_valid = false`, no model, no warnings, and exactly one
`yaml_syntax_error` carrying the 1-based line and column whenever the error
had a problem mark; when the parse yields an empty document, it returns
exactly one `empty_yaml_content` error, again with no model.  In both cases
the result does not depend on any later layer. -/
theorem C9_syntax_failure_returns_immediately {δ μ σ : Type}
    (v : RhKg.Validation.ValidatorSet δ μ σ) (content : String) :
    (∀ msg mark, v.yamlParse content =
        RhKg.Validation.YamlParseOutcome.syntaxError msg mark →
      RhKg.Validation.validate v content =
        { is_valid := false
          errors := [{ type := "yaml_syntax_error"
                       message := "Invalid YAML syntax: " ++ msg
                       field := none
                       entity := none
                       line := mark.map (fun p => p.1 + 1)
                       column := mark.map (fun p => p.2 + 1)
                       help := some "Ensure the file contains valid YAML syntax" }]
          warnings := []
          model := none }) ∧
    (v.yamlParse content = RhKg.Validation.YamlParseOutcome.parsed none →
      RhKg.Validation.validate v content =
        { is_valid := false
          errors := [{ type := "empty_yaml_content"
                       message := "YAML content is empty or contains only whitespace"
                       field := none
                       entity := none
                       line := none
                       column := none
                       help := some "Ensure the file contains valid YAML content" }]
          warnings := []
          model := none }) := by
  constructor
  · intro msg mark hp
    unfold RhKg.Validation.validate RhKg.Validation.yaml_syntax_validate
    rw [hp]
    rfl
  · intro hp
    unfold RhKg.Validation.validate RhKg.Validation.yaml_syntax_validate
    rw [hp]
    rfl

/-- The engine invariant: a validation result is valid exactly when its
error list is empty, given that the format layer reports at least one error
whenever it fails to produce a model (as `FieldFormatValidator.validate`
does). -/
theorem validate_is_valid_iff_errors_nil {δ μ σ : Type}
    (v : RhKg.Validation.ValidatorSet δ μ σ) (content : String)
    (hfmt : ∀ d, (v.formatValidate d).1 = none → (v.formatValidate d).2 ≠ []) :
    ((RhKg.Validation.validate v content).is_valid = true ↔
      (RhKg.Validation.validate v content).errors = []) := by
  unfold RhKg.Validation.validate RhKg.Validation.yaml_syntax_validate
  cases hp : v.yamlParse content with
  | syntaxError msg mark => simp
  | parsed dataOpt =>
      cases dataOpt with
      | none => simp
      | some d =>
          cases hfm : v.formatValidate d with
          | mk mOpt fe =>
              cases mOpt with
              | none =>
                  have hfe : fe ≠ [] := by
                    have h2 := hfmt d
                    rw [hfm] at h2
                    exact h2 rfl
                  simp only [hfm]
                  simp
                  split
                  · rename_i hcond
                    obtain ⟨x, hx, _⟩ := hcond
                    have hse : v.structureValidate d ≠ [] := List.ne_nil_of_mem hx
                    simp [hse]
                  · simp [hfe]
              | some m =>
                  simp only [hfm]
                  simp
                  split
                  · rename_i hcond
                    obtain ⟨x, hx, _⟩ := hcond
                    have hse : v.structureValidate d ≠ [] := List.ne_nil_of_mem hx
                    simp [hse]
                  · simp

/-- C4: validating in strict mode yields an error list equal to the
non-strict errors followed by the non-strict warnings promoted to errors;
the strict result's `is_valid` reflects the promoted list; and without
strict mode the pipeline result passes through unchanged.  Strict promotion
is the CLI step (`apply_strict_mode`) applied to the engine result.  The
hypothesis is the format layer's guarantee that a missing model comes with
at least one error. -/
theorem C4_strict_mode_promotes_warnings {δ μ σ : Type}
    (v : RhKg.Validation.ValidatorSet δ μ σ) (content : String)
    (hfmt : ∀ d, (v.formatValidate d).1 = none → (v.formatValidate d).2 ≠ []) :
    (RhKg.Validation.apply_strict_mode true
        (RhKg.Validation.validate v content)).errors =
      (RhKg.Validation.validate v content).errors ++
        (RhKg.Validation.validate v content).warnings.map
          RhKg.Validation.warningToError ∧
    ((RhKg.Validation.apply_strict_mode true
        (RhKg.Validation.validate v content)).is_valid = true ↔
      (RhKg.Validation.apply_strict_mode true
        (RhKg.Validation.validate v content)).errors = []) ∧
    RhKg.Validation.apply_strict_mode false
        (RhKg.Validation.validate v content) =
      RhKg.Validation.validate v content := by
  refine ⟨?_, ?_, ?_⟩
  · unfold RhKg.Validation.apply_strict_mode
    split
    · rfl
    · rename_i hcond
      have hw : (RhKg.Validation.validate v content).warnings = [] := by
        rcases Nat.eq_zero_or_pos
            (RhKg.Validation.validate v content).warnings.length with h0 | h0
        · exact List.length_eq_zero.mp h0
        · exact absurd ⟨rfl, h0⟩ hcond
      simp [hw]
  · unfold RhKg.Validation.apply_strict_mode
    split
    · rename_i hcond
      have hw : (RhKg.Validation.validate v content).warnings ≠ [] := by
        intro h0
        rw [h0] at hcond
        simp at hcond
      simp only []
      constructor
      · intro h0
        cases h0
      · intro h0
        have := List.append_eq_nil.mp h0
        exact absurd (List.map_eq_nil_iff.mp this.2) hw
    · exact validate_is_valid_iff_errors_nil v content hfmt
  · unfold RhKg.Validation.apply_strict_mode
    simp

/-- C5 witness: a concrete validator set with no storage handle on which
validate and validate_sync coincide. -/
theorem C5_validate_sync_equals_validate_witness :
    RhKg.Validation.sampleValidators.storage = none ∧
    RhKg.Validation.validate RhKg.Validation.sampleValidators "x" =
      RhKg.Validation.validate_sync RhKg.Validation.sampleValidators "x" :=
  ⟨rfl, C5_validate_sync_equals_validate_without_storage
    RhKg.Validation.sampleValidators "x" rfl⟩

/-- C9 witness: a concrete syntax failure yields exactly one
`yaml_syntax_error` with 1-based line 3, column 6, no warnings and no
model. -/
theorem C9_syntax_failure_witness :
    RhKg.Validation.validate RhKg.Validation.sampleBadYamlValidators "k: : v" =
      { is_valid := false
        errors := [{ type := "yaml_syntax_error"
                     message := "Invalid YAML syntax: mapping values are not allowed here"
                     field := none
                     entity := none
                     line := some 3
                     column := some 6
                     help := some "Ensure the file contains valid YAML syntax" }]
        warnings := []
        model := none } :=
  (C9_syntax_failure_returns_immediately
      RhKg.Validation.sampleBadYamlValidators "k: : v").1
    "mapping values are not allowed here" (some (2, 5)) rfl

/-- C4 witness: the strict step on a concrete run with one warning promotes
it, the promoted list drives `is_valid`, and the non-strict step is the
identity. -/
theorem C4_strict_mode_promotes_warnings_witness :
    (RhKg.Validation.apply_strict_mode true
        (RhKg.Validation.validate RhKg.Validation.sampleValidators "x")).errors =
      (RhKg.Validation.validate RhKg.Validation.sampleValidators "x").errors ++
        (RhKg.Validation.validate RhKg.Validation.sampleValidators "x").warnings.map
          RhKg.Validation.warningToError ∧
    ((RhKg.Validation.apply_strict_mode true
        (RhKg.Validation.validate RhKg.Validation.sampleValidators "x")).is_valid = true ↔
      (RhKg.Validation.apply_strict_mode true
        (RhKg.Validation.validate RhKg.Validation.sampleValidators "x")).errors = []) ∧
    RhKg.Validation.apply_strict_mode false
        (RhKg.Validation.validate RhKg.Validation.sampleValidators "x") =
      RhKg.Validation.validate RhKg.Validation.sampleValidators "x" :=
  C4_strict_mode_promotes_warnings RhKg.Validation.sampleValidators "x"
    (fun _ h => Option.noConfusion h)

namespace RhKg.RelationshipProcessor

/-- Creating an edge of a relationship type appends its target to that
type's outgoing list. -/
theorem outgoing_create_same (g : GraphState) (et eid r tt tgt : String) :
    outgoing (create_relationship g et eid r tt tgt).1 et eid r =
      outgoing g et eid r ++ [tgt] := by
  simp [outgoing, create_relationship, edgeMatches, List.filter_append]

/-- Creating an edge of a different relationship type leaves the outgoing
list unchanged. -/
theorem outgoing_create_other (g : GraphState) (et eid r tt tgt r' : String)
    (h : r' ≠ r) :
    outgoing (create_relationship g et eid r tt tgt).1 et eid r' =
      outgoing g et eid r' := by
  simp [outgoing, create_relationship, edgeMatches, List.filter_append,
    Ne.symm h]

/-- After removing a relationship type, its outgoing list is empty. -/
theorem outgoing_remove_same (g : GraphState) (et eid r : String) :
    outgoing (remove_relationships_by_type g et eid r).1 et eid r = [] := by
  simp only [outgoing, remove_relationships_by_type, List.filter_filter,
    Bool.and_not_self, List.filter_false, List.map_nil]

/-- Removing one relationship type leaves other types' outgoing lists
unchanged. -/
theorem outgoing_remove_other (g : GraphState) (et eid r r' : String)
    (h : r' ≠ r) :
    outgoing (remove_relationships_by_type g et eid r).1 et eid r' =
      outgoing g et eid r' := by
  simp only [outgoing, remove_relationships_by_type, List.filter_filter]
  congr 1
  apply List.filter_congr
  intro e _
  by_cases hm : edgeMatches et eid r' e = true
  · have hrel : e.relationship_type = r' := by
      simp only [edgeMatches, Bool.and_eq_true, decide_eq_true_eq] at hm
      exact hm.2
    have hne : edgeMatches et eid r e = false := by
      simp [edgeMatches, hrel, h]
    simp [hm, hne]
  · simp only [Bool.not_eq_true] at hm
    simp [hm]

/-- The create fold appends exactly the target list to the relationship's
outgoing list. -/
theorem outgoing_fold_creates (et eid r : String)
    (f : String → String) (targets : List String) (g : GraphState) :
    outgoing (targets.foldl (fun gacc target_id =>
        (create_relationship gacc et eid r (f target_id) target_id).1) g)
      et eid r = outgoing g et eid r ++ targets := by
  induction targets generalizing g with
  | nil => simp
  | cons t rest ih =>
      simp only [List.foldl_cons]
      rw [ih, outgoing_create_same]
      simp

/-- The create fold does not touch other relationship types. -/
theorem outgoing_fold_creates_other (et eid r r' : String) (h : r' ≠ r)
    (f : String → String) (targets : List String) (g : GraphState) :
    outgoing (targets.foldl (fun gacc target_id =>
        (create_relationship gacc et eid r (f target_id) target_id).1) g)
      et eid r' = outgoing g et eid r' := by
  induction targets generalizing g with
  | nil => rfl
  | cons t rest ih =>
      simp only [List.foldl_cons]
      rw [ih, outgoing_create_other _ _ _ _ _ _ _ h]

/-- Processing one schema relationship makes its outgoing list equal the
descriptor's target list. -/
theorem outgoing_processOne_same (g : GraphState) (et eid : String)
    (rel : RelationshipDefinition)
    (ymap : List (String × List String)) :
    outgoing (processOneRelationship g et eid rel ymap).1 et eid rel.name =
      yamlTargets ymap rel.name := by
  simp only [processOneRelationship]
  rw [outgoing_fold_creates, outgoing_remove_same]
  simp

/-- Processing one schema relationship leaves other relationship types'
outgoing lists unchanged. -/
theorem outgoing_processOne_other (g : GraphState) (et eid : String)
    (rel : RelationshipDefinition) (ymap : List (String × List String))
    (r' : String) (h : r' ≠ rel.name) :
    outgoing (processOneRelationship g et eid rel ymap).1 et eid r' =
      outgoing g et eid r' := by
  simp only [processOneRelationship]
  rw [outgoing_fold_creates_other _ _ _ _ h, outgoing_remove_other _ _ _ _ _ h]

/-- The processor loop leaves relationship types it never visits
unchanged. -/
theorem outgoing_processRels_not_mem (et eid : String)
    (ymap : List (String × List String)) (rels : List RelationshipDefinition)
    (g : GraphState) (r : String) (h : r ∉ rels.map (·.name)) :
    outgoing (processRelationships et eid ymap rels g).1 et eid r =
      outgoing g et eid r := by
  induction rels generalizing g with
  | nil => rfl
  | cons rel rest ih =>
      simp only [List.map_cons, List.mem_cons] at h
      push_neg at h
      simp only [processRelationships]
      rw [ih _ h.2, outgoing_processOne_other _ _ _ _ _ _ h.1]

/-- After the processor loop, every visited relationship type's outgoing
list equals the descriptor's target list. -/
theorem outgoing_processRels_mem (et eid : String)
    (ymap : List (String × List String)) (rels : List RelationshipDefinition)
    (g : GraphState) (r : String) (h : r ∈ rels.map (·.name)) :
    outgoing (processRelationships et eid ymap rels g).1 et eid r =
      yamlTargets ymap r := by
  induction rels generalizing g with
  | nil => cases h
  | cons rel rest ih =>
      simp only [processRelationships]
      by_cases hrest : r ∈ rest.map (·.name)
      · rw [ih _ hrest]
      · have hr : r = rel.name := by
          simp only [List.map_cons, List.mem_cons] at h
          rcases h with h | h
          · exact h
          · exact absurd h hrest
        subst hr
        rw [outgoing_processRels_not_mem _ _ _ _ _ _ hrest,
          outgoing_processOne_same]

/-- The calls the processor loop makes: for each schema relationship in
order, one removal followed by one creation per descriptor target. -/
theorem processRels_calls (et eid : String)
    (ymap : List (String × List String)) (rels : List RelationshipDefinition)
    (g : GraphState) :
    (processRelationships et eid ymap rels g).2 =
      rels.flatMap (fun rel =>
        StorageCall.removeByType et eid rel.name ::
          (yamlTargets ymap rel.name).map (fun target_id =>
            StorageCall.create et eid rel.name
              (determine_target_entity_type rel target_id) target_id)) := by
  induction rels generalizing g with
  | nil => rfl
  | cons rel rest ih =>
      simp only [processRelationships, List.flatMap_cons]
      rw [ih]
      rfl

end RhKg.RelationshipProcessor

/-- C2: for every entity with a schema and every relationship name declared
in that schema — whether or not the descriptor names it —
`replace_entity_relationships` first calls `remove_relationships_by_type`
and then `create_relationship` once per descriptor target (the call trace),
so that afterwards the outgoing edge list of every schema-declared
relationship equals exactly the descriptor's (possibly empty) target
list. -/
theorem C2_relationship_replacement (schemas : RhKg.Catalog)
    (g : RhKg.RelationshipProcessor.GraphState)
    (entity_type entity_id : String)
    (yaml_relationships : List (String × List String))
    (schema : RhKg.EntitySchema)
    (hs : RhKg.lookupKey schemas entity_type = some schema) :
    ∃ g' calls,
      RhKg.RelationshipProcessor.replace_entity_relationships schemas g
        entity_type entity_id yaml_relationships = some (g', calls) ∧
      calls = schema.relationships.flatMap (fun rel =>
        RhKg.RelationshipProcessor.StorageCall.removeByType entity_type
          entity_id rel.name ::
          (RhKg.RelationshipProcessor.yamlTargets yaml_relationships
            rel.name).map (fun target_id =>
            RhKg.RelationshipProcessor.StorageCall.create entity_type
              entity_id rel.name
              (RhKg.RelationshipProcessor.determine_target_entity_type rel
                target_id) target_id)) ∧
      ∀ r, r ∈ schema.relationships.map (·.name) →
        RhKg.RelationshipProcessor.outgoing g' entity_type entity_id r =
          RhKg.RelationshipProcessor.yamlTargets yaml_relationships r := by
  refine ⟨(RhKg.RelationshipProcessor.processRelationships entity_type
      entity_id yaml_relationships schema.relationships g).1,
    (RhKg.RelationshipProcessor.processRelationships entity_type entity_id
      yaml_relationships schema.relationships g).2, ?_, ?_, ?_⟩
  · simp [RhKg.RelationshipProcessor.replace_entity_relationships, hs]
  · exact RhKg.RelationshipProcessor.processRels_calls entity_type entity_id
      yaml_relationships schema.relationships g
  · intro r hr
    exact RhKg.RelationshipProcessor.outgoing_processRels_mem entity_type
      entity_id yaml_relationships schema.relationships g r hr

/-- C2 witness: the S5 scenario.  Starting from stale `depends_on` and
`internal_depends_on` edges, replacing against a descriptor naming only
`depends_on -> 2.32.0` leaves exactly that edge and empties
`internal_depends_on`. -/
theorem C2_relationship_replacement_witness :
    ∃ g' calls,
      RhKg.RelationshipProcessor.replace_entity_relationships
        RhKg.RelationshipProcessor.repoRelCatalog
        RhKg.RelationshipProcessor.staleGraph "repository" "demo/r1"
        RhKg.RelationshipProcessor.s5Relationships = some (g', calls) ∧
      RhKg.RelationshipProcessor.outgoing g' "repository" "demo/r1"
        "depends_on" = ["external://pypi/requests/2.32.0"] ∧
      RhKg.RelationshipProcessor.outgoing g' "repository" "demo/r1"
        "internal_depends_on" = [] := by
  obtain ⟨g', calls, hrepl, _, hout⟩ := C2_relationship_replacement
    RhKg.RelationshipProcessor.repoRelCatalog
    RhKg.RelationshipProcessor.staleGraph "repository" "demo/r1"
    RhKg.RelationshipProcessor.s5Relationships
    RhKg.RelationshipProcessor.repoRelSchema (by decide)
  refine ⟨g', calls, hrepl, ?_, ?_⟩
  · rw [hout "depends_on" (by decide)]
    decide
  · rw [hout "internal_depends_on" (by decide)]
    decide

/-- C1: the upsert contract is violated by both backends.  On MockStorage,
the first `store_entity` sets `created_at`; a second `store_entity` of the
same (type, id) rebuilds `system_metadata` from the call's metadata, so the
original `created_at` is gone rather than preserved.  On DgraphStorage,
the mutation built by `store_entity` uses the blank-node uid
`_:⟨entity_id⟩` and an unconditionally fresh `created_at`, independent of
the existing state, so a second call creates a second node with a new
`created_at`. -/
theorem C1_store_entity_upsert_bug :
    (((RhKg.Storage.get_entity
        (RhKg.Storage.store_entity { entities := [] } "repository" "demo/r1"
          [("git_repo_url", RhKg.Storage.MValue.str "https://github.com/x/r1")]
          [("namespace", RhKg.Storage.MValue.str "demo")] "T1").1
        "repository" "demo/r1").bind
      (fun e => RhKg.lookupKey e.system_metadata "created_at")) =
        some (RhKg.Storage.MValue.str "T1")) ∧
    (((RhKg.Storage.get_entity
        (RhKg.Storage.store_entity
          (RhKg.Storage.store_entity { entities := [] } "repository" "demo/r1"
            [("git_repo_url", RhKg.Storage.MValue.str "https://github.com/x/r1")]
            [("namespace", RhKg.Storage.MValue.str "demo")] "T1").1
          "repository" "demo/r1"
          [("git_repo_url", RhKg.Storage.MValue.str "https://github.com/x/r1")]
          [("namespace", RhKg.Storage.MValue.str "demo")] "T2").1
        "repository" "demo/r1").bind
      (fun e => RhKg.lookupKey e.system_metadata "created_at")) = none) ∧
    (RhKg.Storage.dgraph_store_entity_mutation "repository" "demo/r1"
      [("git_repo_url", RhKg.Storage.MValue.str "https://github.com/x/r1")]
      [("namespace", RhKg.Storage.MValue.str "demo")] "T2").uid = "_:demo/r1" ∧
    (RhKg.Storage.dgraph_store_entity_mutation "repository" "demo/r1"
      [("git_repo_url", RhKg.Storage.MValue.str "https://github.com/x/r1")]
      [("namespace", RhKg.Storage.MValue.str "demo")] "T2").created_at =
        "T2" := by
  refine ⟨by decide, by decide, by decide, by decide⟩

/-- C3: the apply loop at the S4 failing input.  The single repository
record is stored and counted as created, but — because
`_apply_implementation` never invokes the dependency or relationship
processors — no `external_dependency_package` and no
`external_dependency_version` entity exists after apply, contradicting the
claim's consequence for `external://` references. -/
theorem C3_apply_loop_no_dependency_expansion :
    (RhKg.Apply.apply_entities [RhKg.Apply.s4Record]
      { entities := [] } "T1").2 = (1, 0) ∧
    (RhKg.Storage.get_entity
      (RhKg.Apply.apply_entities [RhKg.Apply.s4Record]
        { entities := [] } "T1").1
      "repository" "demo/r1").isSome = true ∧
    RhKg.Storage.get_entity
      (RhKg.Apply.apply_entities [RhKg.Apply.s4Record]
        { entities := [] } "T1").1
      "external_dependency_package" "external://pypi/requests" = none ∧
    RhKg.Storage.get_entity
      (RhKg.Apply.apply_entities [RhKg.Apply.s4Record]
        { entities := [] } "T1").1
      "external_dependency_version" "external://pypi/requests/2.31.0" = none := by
  refine ⟨by decide, by decide, by decide, by decide⟩
